import Mathlib

/-!
Verification of the motion-profile library (`MotionSegment` class and the
`solveLinearSystem` Gaussian-elimination helper).

The embedding has three layers:

* a JS-number model (`JSNum`, with `NaN`/`±Infinity` and the JS comparison
  semantics) used to embed `validateOptions` faithfully, since several of the
  validation checks hinge on `typeof`/`isNaN`/IEEE comparison behaviour;
* an exact-arithmetic (`ℚ`) model of segment construction and of the four
  evaluation functions plus the two extrema scans, mirroring the source
  line by line (JS `number` arithmetic is modelled exactly; the theorems
  restrict to parameter regions where the source performs no division by
  zero, so the exact model agrees with the floating-point source up to
  rounding);
* a heap-level model of `solveLinearSystem` (rows are store-allocated
  mutable cells) used to state the frame property about argument mutation.
-/

namespace MotionProfile

/-! ## JS number model (for `validateOptions`) -/

/-- A JavaScript `number` value: `NaN`, `+Infinity`, `-Infinity`, or a finite
value (modelled exactly by a rational). -/
inductive JSNum where
  | nan : JSNum
  | posInf : JSNum
  | negInf : JSNum
  | fin (q : ℚ) : JSNum
deriving DecidableEq, Repr

/-- JS `isNaN`. -/
def JSNum.isNaN : JSNum → Bool
  | .nan => true
  | _ => false

/-- JS `<` on numbers: any comparison with `NaN` is `false`. -/
def jsLtB : JSNum → JSNum → Bool
  | .fin p, .fin q => decide (p < q)
  | .fin _, .posInf => true
  | .negInf, .fin _ => true
  | .negInf, .posInf => true
  | _, _ => false

/-- JS `>` on numbers. -/
def jsGtB (a b : JSNum) : Bool := jsLtB b a

/-- JS `>=` on numbers: `false` whenever either side is `NaN`, otherwise the
negation of `<`. -/
def jsGeB : JSNum → JSNum → Bool
  | .nan, _ => false
  | _, .nan => false
  | a, b => !(jsLtB a b)

/-- The six supported segment types (source: `type SegmentType = ...`). -/
inductive SegmentType where
  | constant : SegmentType
  | triangular : SegmentType
  | trapezoidal : SegmentType
  | sCurve : SegmentType
  | polynomial : SegmentType
  | jerkLimited : SegmentType
deriving DecidableEq, Repr

/-- The construction options as they look at the JS runtime level: every field
may be `undefined` (modelled by `none`), and present numeric fields carry a
`JSNum`.  Mirrors `interface MotionSegmentOptions`. -/
structure MotionSegmentOptionsJS where
  startTime : Option JSNum
  endTime : Option JSNum
  distance : Option JSNum
  startVelocity : Option JSNum
  endVelocity : Option JSNum
  startAccel : Option JSNum
  endAccel : Option JSNum
  startJerk : Option JSNum
  endJerk : Option JSNum
  segmentType : Option SegmentType
  cruisePercentage : Option JSNum
deriving DecidableEq, Repr

/-- A possibly-`undefined` JS value used as a number: `undefined` coerces to
`NaN` in JS arithmetic/comparisons. -/
def jsVal (x : Option JSNum) : JSNum := x.getD .nan

/-- Whether `typeof x === 'number'` holds (in the typed interface the only
non-number runtime value a field can hold is `undefined`). -/
def jsIsNumber (x : Option JSNum) : Bool := x.isSome

/-- Embedding of `MotionSegment.validateOptions` (source lines 70-121):
the same checks, in the same order, with JS comparison semantics. -/
def validateOptions (o : MotionSegmentOptionsJS) : Except String Unit :=
  if !(jsIsNumber o.startTime) || !(jsIsNumber o.endTime) then
    .error "startTime and endTime must be numbers"
  else if !(jsIsNumber o.distance) || (jsVal o.distance).isNaN then
    .error "distance must be a number"
  else if !(jsIsNumber o.startVelocity) || (jsVal o.startVelocity).isNaN then
    .error "startVelocity must be a number"
  else if o.segmentType.isNone then
    .error "segmentType is required"
  else if jsGeB (jsVal o.startTime) (jsVal o.endTime) then
    .error "startTime must be less than endTime"
  else if jsLtB (jsVal o.distance) (.fin 0) then
    .error "distance must be non-negative"
  else if jsLtB (jsVal o.startVelocity) (.fin 0) then
    .error "startVelocity must be non-negative"
  else if o.segmentType = some .constant && o.endVelocity.isSome then
    .error "endVelocity should not be provided for constant segment"
  else if o.segmentType ≠ some .constant && o.endVelocity.isSome
      && jsLtB (jsVal o.endVelocity) (.fin 0) then
    .error "endVelocity must be non-negative"
  else if o.segmentType = some .jerkLimited
      && (o.startAccel.isNone || o.endAccel.isNone) then
    .error "startAccel and endAccel are required for jerk-limited segment"
  else if o.segmentType = some .jerkLimited
      && (o.startJerk.isNone || o.endJerk.isNone) then
    .error "startJerk and endJerk are required for jerk-limited segment"
  else if o.segmentType = some .trapezoidal && o.cruisePercentage.isSome
      && (jsLtB (jsVal o.cruisePercentage) (.fin 0)
          || jsGtB (jsVal o.cruisePercentage) (.fin 1)) then
    .error "cruisePercentage must be between 0 and 1 for trapezoidal segments"
  else
    .ok ()

/-! ## The linear solver (source: `solveLinearSystem`, lines 782-803)

The source works on a JS array-of-rows; all index accesses are in bounds for
the square systems the library builds, so the value-level embedding uses
`Fin`-indexed matrices over `ℚ` (exact arithmetic).  The heap-level embedding
used for the frame claim appears further below. -/

/-- The augmented matrix `[A|b]` (source: `const A = M.map((row, i) => [...row, b[i]])`). -/
def augmentMat {n : ℕ} (M : Matrix (Fin n) (Fin n) ℚ) (b : Fin n → ℚ) :
    Matrix (Fin n) (Fin (n + 1)) ℚ :=
  Matrix.of fun r c => if h : (c : ℕ) < n then M r ⟨c, h⟩ else b r

/-- Partial-pivot search for column `i`: starting from `maxRow = i`, scan rows
`k = i+1 .. n-1` and take `k` whenever `|A[k][i]| > |A[maxRow][i]|`
(source lines 787-789). -/
def pivotSearch {n : ℕ} (A : Matrix (Fin n) (Fin (n + 1)) ℚ) (i : Fin n) : Fin n :=
  ((List.finRange n).drop (i.1 + 1)).foldl
    (fun best k => if |A k i.castSucc| > |A best i.castSucc| then k else best) i

/-- The swap `[A[i], A[maxRow]] = [A[maxRow], A[i]]` (source line 790). -/
def swapRowsOp {n : ℕ} (A : Matrix (Fin n) (Fin (n + 1)) ℚ) (i m : Fin n) :
    Matrix (Fin n) (Fin (n + 1)) ℚ :=
  Matrix.of fun r c => A (Equiv.swap i m r) c

/-- The pivot-row normalisation `let factor = A[i][i]; for (j) A[i][j] /= factor`
(source lines 791-793): `factor` is read once, before the division loop. -/
def normRowOp {n : ℕ} (A : Matrix (Fin n) (Fin (n + 1)) ℚ) (i : Fin n) :
    Matrix (Fin n) (Fin (n + 1)) ℚ :=
  let factor := A i i.castSucc
  Matrix.of fun r c => if r = i then A r c / factor else A r c

/-- The column elimination `for (k ≠ i) { let coeff = A[k][i]; for (j) A[k][j]
-= coeff * A[i][j] }` (source lines 794-800): `coeff` is read before the inner
loop, and the inner loop only writes row `k` while reading row `i`. -/
def elimColOp {n : ℕ} (A : Matrix (Fin n) (Fin (n + 1)) ℚ) (i : Fin n) :
    Matrix (Fin n) (Fin (n + 1)) ℚ :=
  Matrix.of fun k j => if k = i then A k j else A k j - A k i.castSucc * A i j

/-- One iteration of the elimination loop for pivot column `i`: swap the pivot
row into place, divide the pivot row by the pivot value, then subtract
`A[k][i] * A[i][·]` from every other row `k` (source lines 786-800). -/
def gjStep {n : ℕ} (A : Matrix (Fin n) (Fin (n + 1)) ℚ) (i : Fin n) :
    Matrix (Fin n) (Fin (n + 1)) ℚ :=
  elimColOp (normRowOp (swapRowsOp A i (pivotSearch A i)) i) i

/-- The full elimination: the `for (let i = 0; i < n; i++)` loop. -/
def gaussianElim {n : ℕ} (A : Matrix (Fin n) (Fin (n + 1)) ℚ) :
    Matrix (Fin n) (Fin (n + 1)) ℚ :=
  (List.finRange n).foldl gjStep A

/-- Embedding of `solveLinearSystem(M, b)`: run the elimination on the
augmented matrix and read off the last column (`A.map(row => row[n])`). -/
def solveLinearSystem {n : ℕ} (M : Matrix (Fin n) (Fin n) ℚ) (b : Fin n → ℚ) :
    Fin n → ℚ :=
  fun r => gaussianElim (augmentMat M b) r (Fin.last n)

/-- Proof infrastructure: the left `n × n` block of an augmented matrix. -/
def leftBlock {n : ℕ} (A : Matrix (Fin n) (Fin (n + 1)) ℚ) :
    Matrix (Fin n) (Fin n) ℚ :=
  Matrix.of fun r c => A r c.castSucc

/-- Proof infrastructure: the strictly-off-diagonal column matrix `u` with
`u r i = A r i` for `r ≠ i`, so that the column elimination step is left
multiplication by `1 - u`. -/
def elimU {n : ℕ} (A : Matrix (Fin n) (Fin (n + 1)) ℚ) (i : Fin n) :
    Matrix (Fin n) (Fin n) ℚ :=
  Matrix.of fun r k => if k = i ∧ r ≠ i then A r i.castSucc else 0

/-- Proof infrastructure: the loop invariant of the elimination.  After the
pivot columns `0 .. i-1` have been processed, the working matrix is an
invertible row transformation of the initial augmented matrix, and its first
`i` columns are the corresponding identity columns. -/
def gjInv {n : ℕ} (A₀ : Matrix (Fin n) (Fin (n + 1)) ℚ) (i : ℕ)
    (A : Matrix (Fin n) (Fin (n + 1)) ℚ) : Prop :=
  (∃ E : Matrix (Fin n) (Fin n) ℚ, IsUnit E.det ∧ A = E * A₀) ∧
    ∀ (r c : Fin n), (c : ℕ) < i → A r c.castSucc = if r = c then 1 else 0

/-! ## Segment construction (source: the `MotionSegment` constructor) -/

/-- The construction options restricted to finite numeric values, used by the
exact-arithmetic model of construction and evaluation. -/
structure MotionSegmentOptions where
  startTime : ℚ
  endTime : ℚ
  distance : ℚ
  startVelocity : ℚ
  endVelocity : Option ℚ
  startAccel : Option ℚ
  endAccel : Option ℚ
  startJerk : Option ℚ
  endJerk : Option ℚ
  segmentType : SegmentType
  cruisePercentage : Option ℚ
deriving DecidableEq, Repr

/-- View finite-valued options at the JS runtime level. -/
def toJS (o : MotionSegmentOptions) : MotionSegmentOptionsJS where
  startTime := some (.fin o.startTime)
  endTime := some (.fin o.endTime)
  distance := some (.fin o.distance)
  startVelocity := some (.fin o.startVelocity)
  endVelocity := o.endVelocity.map .fin
  startAccel := o.startAccel.map .fin
  endAccel := o.endAccel.map .fin
  startJerk := o.startJerk.map .fin
  endJerk := o.endJerk.map .fin
  segmentType := some o.segmentType
  cruisePercentage := o.cruisePercentage.map .fin

/-- The constructed segment state: the private fields of class `MotionSegment`.
`vf` is `none` for the constant shape (`this.vf = undefined as any`); `coeffs`
and `jerkCoeffs` are `none` exactly when the shape does not set them. -/
structure MotionSegment where
  t0 : ℚ
  t1 : ℚ
  d : ℚ
  v0 : ℚ
  vf : Option ℚ
  a0 : ℚ
  af : ℚ
  j0 : ℚ
  jf : ℚ
  type : SegmentType
  coeffs : Option (List ℚ)
  jerkCoeffs : Option (List ℚ)
  cruisePercentage : Option ℚ
deriving DecidableEq, Repr

/-- The 4×4 cubic-fit matrix built in the constructor's polynomial branch
(match position and velocity at both ends). -/
def cubicM (T : ℚ) : Matrix (Fin 4) (Fin 4) ℚ :=
  !![1, 0, 0, 0;
     0, 1, 0, 0;
     1, T, T^2, T^3;
     0, 1, 2*T, 3*T^2]

/-- The 6×6 quintic-fit matrix built in the constructor's polynomial branch
(match position, velocity and acceleration at both ends). -/
def quinticM (T : ℚ) : Matrix (Fin 6) (Fin 6) ℚ :=
  !![1, 0, 0, 0, 0, 0;
     0, 1, 0, 0, 0, 0;
     0, 0, 2, 0, 0, 0;
     1, T, T^2, T^3, T^4, T^5;
     0, 1, 2*T, 3*T^2, 4*T^3, 5*T^4;
     0, 0, 2, 6*T, 12*T^2, 20*T^3]

/-- The 8×8 matrix of `calcJerkLimitedCoeffs` (match position, velocity,
acceleration and jerk at both ends). -/
def septicM (T : ℚ) : Matrix (Fin 8) (Fin 8) ℚ :=
  !![1, 0, 0, 0, 0, 0, 0, 0;
     0, 1, 0, 0, 0, 0, 0, 0;
     0, 0, 2, 0, 0, 0, 0, 0;
     0, 0, 0, 6, 0, 0, 0, 0;
     1, T, T^2, T^3, T^4, T^5, T^6, T^7;
     0, 1, 2*T, 3*T^2, 4*T^3, 5*T^4, 6*T^5, 7*T^6;
     0, 0, 2, 6*T, 12*T^2, 20*T^3, 30*T^4, 42*T^5;
     0, 0, 0, 6, 24*T, 60*T^2, 120*T^3, 210*T^4]

/-- Proof infrastructure: the inverse of `cubicM 1` (the cubic Hermite basis
coefficients on `[0,1]`), used to certify that `cubicM T` is nonsingular. -/
def cubicMInvOne : Matrix (Fin 4) (Fin 4) ℚ :=
  !![1, 0, 0, 0;
     0, 1, 0, 0;
     -3, -2, 3, -1;
     2, 1, -2, 1]

/-- Proof infrastructure: the inverse of `quinticM 1` (the quintic Hermite
basis coefficients on `[0,1]`). -/
def quinticMInvOne : Matrix (Fin 6) (Fin 6) ℚ :=
  !![1, 0, 0, 0, 0, 0;
     0, 1, 0, 0, 0, 0;
     0, 0, 1/2, 0, 0, 0;
     -10, -6, -3/2, 10, -4, 1/2;
     15, 8, 3/2, -15, 7, -1;
     -6, -3, -1/2, 6, -3, 1/2]

/-- Proof infrastructure: the inverse of `septicM 1` (the septic Hermite basis
coefficients on `[0,1]`). -/
def septicMInvOne : Matrix (Fin 8) (Fin 8) ℚ :=
  !![1, 0, 0, 0, 0, 0, 0, 0;
     0, 1, 0, 0, 0, 0, 0, 0;
     0, 0, 1/2, 0, 0, 0, 0, 0;
     0, 0, 0, 1/6, 0, 0, 0, 0;
     -35, -20, -5, -2/3, 35, -15, 5/2, -1/6;
     84, 45, 10, 1, -84, 39, -7, 1/2;
     -70, -36, -15/2, -2/3, 70, -34, 13/2, -1/2;
     20, 10, 2, 1/6, -20, 10, -2, 1/6]

/-- Embedding of `calcJerkLimitedCoeffs` (source lines 640-668). -/
def calcJerkLimitedCoeffs (t0 t1 d v0 vf a0 af j0 jf : ℚ) : List ℚ :=
  List.ofFn (solveLinearSystem (septicM (t1 - t0)) ![0, v0, a0, j0, d, vf, af, jf])

/-- The polynomial-branch coefficient fit of the constructor (source lines
149-185): quintic when both `startAccel` and `endAccel` are supplied, cubic
otherwise. -/
def polynomialFitCoeffs (o : MotionSegmentOptions) : List ℚ :=
  let T := o.endTime - o.startTime
  match o.startAccel, o.endAccel with
  | some a0, some a1 =>
      List.ofFn (solveLinearSystem (quinticM T)
        ![0, o.startVelocity, a0, o.distance, o.endVelocity.getD o.startVelocity, a1])
  | _, _ =>
      List.ofFn (solveLinearSystem (cubicM T)
        ![0, o.startVelocity, o.distance, o.endVelocity.getD o.startVelocity])

/-- The post-validation body of the constructor (source lines 129-188): field
initialisation and per-shape derived state. -/
def buildSegment (o : MotionSegmentOptions) : MotionSegment :=
  let t0 := o.startTime
  let t1 := o.endTime
  let d := o.distance
  let v0 := o.startVelocity
  let T := t1 - t0
  let vf : Option ℚ :=
    if o.segmentType = .constant then none else some (o.endVelocity.getD v0)
  let a0 : ℚ :=
    if o.segmentType = .constant then 2 * (d - v0 * T) / T^2 else o.startAccel.getD 0
  let af : ℚ :=
    if o.segmentType = .constant then 2 * (d - v0 * T) / T^2 else o.endAccel.getD 0
  let j0 := o.startJerk.getD 0
  let jf := o.endJerk.getD 0
  let coeffs : Option (List ℚ) :=
    if o.segmentType = .polynomial then some (polynomialFitCoeffs o) else none
  let jerkCoeffs : Option (List ℚ) :=
    if o.segmentType = .jerkLimited then
      some (calcJerkLimitedCoeffs t0 t1 d v0 (o.endVelocity.getD v0) a0 af j0 jf)
    else none
  ⟨t0, t1, d, v0, vf, a0, af, j0, jf, o.segmentType, coeffs, jerkCoeffs, o.cruisePercentage⟩

/-- Embedding of `new MotionSegment(opts)`: validate, then build. -/
def constructSegment (o : MotionSegmentOptions) : Except String MotionSegment :=
  (validateOptions (toJS o)).map fun _ => buildSegment o

/-! ## Evaluation functions -/

/-- Embedding of the private `clampDt` helper (source lines 749-753). -/
def clampDt (s : MotionSegment) (t : ℚ) : ℚ :=
  if t < s.t0 then 0 else if t > s.t1 then s.t1 - s.t0 else t - s.t0

/-- Embedding of `normalizedTime` (source lines 761-763). -/
def normalizedTime (s : MotionSegment) (t : ℚ) : ℚ :=
  (t - s.t0) / (s.t1 - s.t0)

/-- Embedding of `clamp01` (`Math.max(0, Math.min(1, x))`). -/
def clamp01 (x : ℚ) : ℚ := max 0 (min 1 x)

/-- `constantPosition` (source lines 323-328). -/
def constantPosition (s : MotionSegment) (t : ℚ) : ℚ :=
  let dt := clampDt s t
  s.v0 * dt + (1/2) * s.a0 * dt * dt

/-- `constantVelocity` (source lines 336-340). -/
def constantVelocity (s : MotionSegment) (t : ℚ) : ℚ :=
  let dt := clampDt s t
  s.v0 + s.a0 * dt

/-- `constantAcceleration` (source lines 348-351): ignores `t`. -/
def constantAcceleration (s : MotionSegment) (_t : ℚ) : ℚ := s.a0

/-- Result record of `triangularParams`. -/
structure TriParams where
  a : ℚ
  t1 : ℚ
  vPeak : ℚ
deriving DecidableEq, Repr

/-- `triangularParams` (source lines 360-367); the source comments that it
assumes `v0 = vf = 0`. -/
def triangularParams (s : MotionSegment) : TriParams :=
  let T := s.t1 - s.t0
  let vPeak := 2 * s.d / T
  let t1 := T / 2
  let a := vPeak / t1
  ⟨a, t1, vPeak⟩

/-- `triangularPosition` (source lines 375-386). -/
def triangularPosition (s : MotionSegment) (t : ℚ) : ℚ :=
  let dt := clampDt s t
  let p := triangularParams s
  if dt < p.t1 then
    s.v0 * dt + (1/2) * p.a * dt * dt
  else
    let d1 := s.v0 * p.t1 + (1/2) * p.a * p.t1 * p.t1
    let decel := -p.a
    let dt2 := dt - p.t1
    d1 + p.vPeak * dt2 + (1/2) * decel * dt2 * dt2

/-- `triangularVelocity` (source lines 394-404). -/
def triangularVelocity (s : MotionSegment) (t : ℚ) : ℚ :=
  let dt := clampDt s t
  let p := triangularParams s
  if dt < p.t1 then s.v0 + p.a * dt
  else
    let decel := -p.a
    let dt2 := dt - p.t1
    p.vPeak + decel * dt2

/-- `triangularAcceleration` (source lines 412-416). -/
def triangularAcceleration (s : MotionSegment) (t : ℚ) : ℚ :=
  let dt := clampDt s t
  let p := triangularParams s
  if dt < p.t1 then p.a else -p.a

/-- Result record of `trapezoidalParams`. -/
structure TrapParams where
  vMax : ℚ
  t1 : ℚ
  t2 : ℚ
  t3 : ℚ
  a1 : ℚ
  a3 : ℚ
deriving DecidableEq, Repr

/-- `trapezoidalParams` (source lines 427-466).  `this.vf` is read here; it is
always set (to a number) for trapezoidal segments, so the `getD 0` default is
never reached on the paths the theorems use. -/
def trapezoidalParams (s : MotionSegment) : TrapParams :=
  let T := s.t1 - s.t0
  let v0 := s.v0
  let vf := s.vf.getD 0
  let d := s.d
  match s.cruisePercentage with
  | some cp =>
      let cruiseFrac := max 0 (min 1 cp)
      let t2 := cruiseFrac * T
      let t1 := (T - t2) / 2
      let t3 := (T - t2) / 2
      let vMax := (d - (t1 / 2) * v0 - (t3 / 2) * vf) / ((t1 / 2) + t2 + (t3 / 2))
      let a1 := (vMax - v0) / t1
      let a3 := (vf - vMax) / t3
      ⟨vMax, t1, t2, t3, a1, a3⟩
  | none =>
      let vMaxMin := 2 * (d - (T / 4) * (v0 + vf)) / T
      let a1 := (vMaxMin - v0) / (T / 2)
      let a3 := (vf - vMaxMin) / (T / 2)
      let t1 := (vMaxMin - v0) / a1
      let t3 := (vMaxMin - vf) / |a3|
      let d1 := (v0 + vMaxMin) * t1 / 2
      let d3 := (vf + vMaxMin) * t3 / 2
      let d2 := d - d1 - d3
      let t2 := d2 / vMaxMin
      if t2 < 0 then
        let vPeak := vMaxMin
        let t1tri := T / 2
        let t3tri := T / 2
        let a1tri := (vPeak - v0) / t1tri
        let a3tri := (vf - vPeak) / t3tri
        ⟨vPeak, t1tri, 0, t3tri, a1tri, a3tri⟩
      else
        ⟨vMaxMin, t1, t2, t3, a1, a3⟩

/-- `trapezoidalPosition` (source lines 474-489). -/
def trapezoidalPosition (s : MotionSegment) (t : ℚ) : ℚ :=
  let dt := clampDt s t
  let p := trapezoidalParams s
  if dt < p.t1 then
    s.v0 * dt + (1/2) * p.a1 * dt * dt
  else if dt < p.t1 + p.t2 then
    let d1 := s.v0 * p.t1 + (1/2) * p.a1 * p.t1 * p.t1
    let dt2 := dt - p.t1
    d1 + p.vMax * dt2
  else
    let d1 := s.v0 * p.t1 + (1/2) * p.a1 * p.t1 * p.t1
    let d2 := p.vMax * p.t2
    let dt3 := dt - p.t1 - p.t2
    d1 + d2 + p.vMax * dt3 + (1/2) * p.a3 * dt3 * dt3

/-- `trapezoidalVelocity` (source lines 497-508). -/
def trapezoidalVelocity (s : MotionSegment) (t : ℚ) : ℚ :=
  let dt := clampDt s t
  let p := trapezoidalParams s
  if dt < p.t1 then s.v0 + p.a1 * dt
  else if dt < p.t1 + p.t2 then p.vMax
  else
    let dt3 := dt - p.t1 - p.t2
    p.vMax + p.a3 * dt3

/-- `trapezoidalAcceleration` (source lines 516-522). -/
def trapezoidalAcceleration (s : MotionSegment) (t : ℚ) : ℚ :=
  let dt := clampDt s t
  let p := trapezoidalParams s
  if dt < p.t1 then p.a1
  else if dt < p.t1 + p.t2 then 0
  else p.a3

/-- `sCurvePosition` (source lines 532-537). -/
def sCurvePosition (s : MotionSegment) (t : ℚ) : ℚ :=
  let x := clamp01 (normalizedTime s t)
  s.d * (3 * x * x - 2 * x * x * x)

/-- `sCurveVelocity` (source lines 545-551). -/
def sCurveVelocity (s : MotionSegment) (t : ℚ) : ℚ :=
  let x := clamp01 (normalizedTime s t)
  let T := s.t1 - s.t0
  s.d * (6 * x - 6 * x * x) / T

/-- `sCurveAcceleration` (source lines 559-565). -/
def sCurveAcceleration (s : MotionSegment) (t : ℚ) : ℚ :=
  let x := clamp01 (normalizedTime s t)
  let T := s.t1 - s.t0
  s.d * (6 - 12 * x) / (T * T)

/-- `sCurveJerk` (source lines 573-577): constant in `t`. -/
def sCurveJerk (s : MotionSegment) (_t : ℚ) : ℚ :=
  let T := s.t1 - s.t0
  (-12) * s.d / (T * T * T)

/-- Power-series evaluation `coeffs.reduce((sum, c, i) => sum + c * dt^i, 0)`. -/
def polyEvalBase (cs : List ℚ) (dt : ℚ) : ℚ :=
  cs.enum.foldl (fun sum ic => sum + ic.2 * dt ^ ic.1) 0

/-- First-derivative series: `coeffs.slice(1).reduce((sum, c, i) => sum + c*(i+1)*dt^i, 0)`. -/
def polyEvalD1 (cs : List ℚ) (dt : ℚ) : ℚ :=
  (cs.drop 1).enum.foldl (fun sum ic => sum + ic.2 * ((ic.1 : ℚ) + 1) * dt ^ ic.1) 0

/-- Second-derivative series (`slice(2)`, weight `(i+2)*(i+1)`). -/
def polyEvalD2 (cs : List ℚ) (dt : ℚ) : ℚ :=
  (cs.drop 2).enum.foldl
    (fun sum ic => sum + ic.2 * ((ic.1 : ℚ) + 2) * ((ic.1 : ℚ) + 1) * dt ^ ic.1) 0

/-- Third-derivative series (`slice(3)`, weight `(i+3)*(i+2)*(i+1)`). -/
def polyEvalD3 (cs : List ℚ) (dt : ℚ) : ℚ :=
  (cs.drop 3).enum.foldl
    (fun sum ic =>
      sum + ic.2 * ((ic.1 : ℚ) + 3) * ((ic.1 : ℚ) + 2) * ((ic.1 : ℚ) + 1) * dt ^ ic.1) 0

/-- The inline clamping of `dt` performed at the top of `jerkLimitedPolyEval`
(source lines 679-681: `let dt = t - this.t0; if (dt < 0) dt = 0;
if (dt > this.t1 - this.t0) dt = this.t1 - this.t0`). -/
def jlClampDt (s : MotionSegment) (t : ℚ) : ℚ :=
  let dtRaw := t - s.t0
  let dtLo := if dtRaw < 0 then 0 else dtRaw
  if dtLo > s.t1 - s.t0 then s.t1 - s.t0 else dtLo

/-- `jerkLimitedPolyEval` (source lines 677-691): inline clamping of `dt`
followed by the derivative-weighted power series. -/
def jerkLimitedPolyEval (cs : List ℚ) (s : MotionSegment) (t : ℚ) (deriv : ℕ) : ℚ :=
  let dt := jlClampDt s t
  if deriv = 0 then polyEvalBase cs dt
  else if deriv = 1 then polyEvalD1 cs dt
  else if deriv = 2 then polyEvalD2 cs dt
  else if deriv = 3 then polyEvalD3 cs dt
  else 0

/-- `position(t)` (source lines 198-215): shape dispatch.  The polynomial and
jerk-limited branches throw when their coefficients are missing; the throws
are modelled as `Except.error`.  The source's `default: throw new Error
('Unknown segment type')` branch has no counterpart because `SegmentType` is a
closed enumeration in the embedding, exactly as in the TS string-union type. -/
def position (s : MotionSegment) (t : ℚ) : Except String ℚ :=
  match s.type with
  | .constant => .ok (constantPosition s t)
  | .triangular => .ok (triangularPosition s t)
  | .trapezoidal => .ok (trapezoidalPosition s t)
  | .sCurve => .ok (sCurvePosition s t)
  | .polynomial =>
      match s.coeffs with
      | none => .error "No coefficients provided"
      | some cs => .ok (polyEvalBase cs (clampDt s t))
  | .jerkLimited =>
      match s.jerkCoeffs with
      | none => .error "Coefficients not set"
      | some cs => .ok (jerkLimitedPolyEval cs s t 0)

/-- `velocity(t)` (source lines 222-239). -/
def velocity (s : MotionSegment) (t : ℚ) : Except String ℚ :=
  match s.type with
  | .constant => .ok (constantVelocity s t)
  | .triangular => .ok (triangularVelocity s t)
  | .trapezoidal => .ok (trapezoidalVelocity s t)
  | .sCurve => .ok (sCurveVelocity s t)
  | .polynomial =>
      match s.coeffs with
      | none => .error "No coefficients provided"
      | some cs => .ok (polyEvalD1 cs (clampDt s t))
  | .jerkLimited =>
      match s.jerkCoeffs with
      | none => .error "Coefficients not set"
      | some cs => .ok (jerkLimitedPolyEval cs s t 1)

/-- `acceleration(t)` (source lines 246-263). -/
def acceleration (s : MotionSegment) (t : ℚ) : Except String ℚ :=
  match s.type with
  | .constant => .ok (constantAcceleration s t)
  | .triangular => .ok (triangularAcceleration s t)
  | .trapezoidal => .ok (trapezoidalAcceleration s t)
  | .sCurve => .ok (sCurveAcceleration s t)
  | .polynomial =>
      match s.coeffs with
      | none => .error "No coefficients provided"
      | some cs => .ok (polyEvalD2 cs (clampDt s t))
  | .jerkLimited =>
      match s.jerkCoeffs with
      | none => .error "Coefficients not set"
      | some cs => .ok (jerkLimitedPolyEval cs s t 2)

/-- `jerk(t)` (source lines 270-281): defaults to `0` for shapes that do not
model jerk. -/
def jerk (s : MotionSegment) (t : ℚ) : Except String ℚ :=
  match s.type with
  | .polynomial =>
      match s.coeffs with
      | none => .error "No coefficients provided"
      | some cs => .ok (polyEvalD3 cs (clampDt s t))
  | .jerkLimited =>
      match s.jerkCoeffs with
      | none => .error "Coefficients not set"
      | some cs => .ok (jerkLimitedPolyEval cs s t 3)
  | .sCurve => .ok (sCurveJerk s t)
  | _ => .ok 0

/-- `getMaxAcceleration()` (source lines 287-297): sample `|acceleration|` at
`t0 + (i/100)*(t1-t0)` for `i = 0..100` and keep the running maximum,
starting from 0. -/
def getMaxAcceleration (s : MotionSegment) : Except String ℚ :=
  (List.range 101).foldl
    (fun acc i => acc.bind fun maxA =>
      (acceleration s (s.t0 + ((i : ℚ) / 100) * (s.t1 - s.t0))).map fun a =>
        if |a| > maxA then |a| else maxA)
    (.ok 0)

/-- `getMaxJerk()` (source lines 303-313). -/
def getMaxJerk (s : MotionSegment) : Except String ℚ :=
  (List.range 101).foldl
    (fun acc i => acc.bind fun maxJ =>
      (jerk s (s.t0 + ((i : ℚ) / 100) * (s.t1 - s.t0))).map fun j =>
        if |j| > maxJ then |j| else maxJ)
    (.ok 0)

/-! ## Concrete option records used by the boundary-validation claims -/

/-- Trapezoidal options with `cruisePercentage` exactly 0. -/
def c4OptsZero : MotionSegmentOptions :=
  ⟨0, 10, 100, 0, some 0, none, none, none, none, .trapezoidal, some 0⟩

/-- Trapezoidal options with `cruisePercentage` exactly 1. -/
def c4OptsOne : MotionSegmentOptions :=
  ⟨0, 10, 100, 0, some 0, none, none, none, none, .trapezoidal, some 1⟩

/-- Runtime options with `startTime = NaN` and otherwise valid constant-shape
fields. -/
def c5NanStart : MotionSegmentOptionsJS :=
  ⟨some .nan, some (.fin 10), some (.fin 100), some (.fin 0),
    none, none, none, none, none, some .constant, none⟩

/-- Runtime options with `endTime = Infinity`. -/
def c5InfEnd : MotionSegmentOptionsJS :=
  ⟨some (.fin 0), some .posInf, some (.fin 100), some (.fin 0),
    none, none, none, none, none, some .constant, none⟩

/-- Runtime options with `startTime = -Infinity`. -/
def c5NegInfStart : MotionSegmentOptionsJS :=
  ⟨some .negInf, some (.fin 10), some (.fin 100), some (.fin 0),
    none, none, none, none, none, some .constant, none⟩

/-- Triangular options with nonzero `startVelocity`; validation only requires
`startVelocity ≥ 0`, so these are accepted. -/
def c1TriOpts : MotionSegmentOptions :=
  ⟨0, 2, 4, 1, some 0, none, none, none, none, .triangular, none⟩

/-- Constant-shape options used by the C1 witness. -/
def c1ConstOpts : MotionSegmentOptions :=
  ⟨0, 10, 100, 0, none, none, none, none, none, .constant, none⟩

/-- The same options with both boundary accelerations removed (used to state
that a single supplied boundary acceleration has no effect). -/
def eraseAccels (o : MotionSegmentOptions) : MotionSegmentOptions :=
  { o with startAccel := none, endAccel := none }

/-- Polynomial options with `startAccel` supplied but `endAccel` absent. -/
def c9Opts : MotionSegmentOptions :=
  ⟨0, 1, 1, 0, some 0, some 3, none, none, none, .polynomial, none⟩

/-- Modelled from the spec's words for the extrema queries, not from the code:
"sample the respective function at a fixed number of equally spaced points
across [t0,t1] (inclusive of both endpoints)" with "sample count (fixed at
100)": 100 points inclusive of both endpoints means spacing `(t1-t0)/99`,
points `t0 + (i/99)*(t1-t0)` for `i = 0..99`.  Kept otherwise identical in
shape to `getMaxAcceleration` for the refinement comparison. -/
def specMaxAcceleration (s : MotionSegment) : Except String ℚ :=
  (List.range 100).foldl
    (fun acc i => acc.bind fun maxA =>
      (acceleration s (s.t0 + ((i : ℚ) / 99) * (s.t1 - s.t0))).map fun a =>
        if |a| > maxA then |a| else maxA)
    (.ok 0)

/-- Polynomial options whose quintic fit produces the acceleration profile
`972·(2 - (t - 1/3)^2)` on `[0,1]`: its strict maximum 1944 sits exactly at
`t = 1/3 = 33/99`, which is a node of a 100-point inclusive grid but not of
the code's 101-point grid. -/
def c8Opts : MotionSegmentOptions :=
  ⟨0, 1, 945, 0, some 1836, some 1836, some 1512, none, none, .polynomial, none⟩

/-- The segment 'new MotionSegment(c8Opts)' constructs: its quintic
coefficients are `[0, 0, 918, 108, -81, 0]` (proved via the solver's
correctness and nonsingularity of the quintic matrix). -/
def c8Seg : MotionSegment :=
  ⟨0, 1, 945, 0, some 1836, 1836, 1512, 0, 0, .polynomial,
    some [0, 0, 918, 108, -81, 0], none, none⟩

/-! ## Heap-level model of `solveLinearSystem` (for the frame claim)

JS arrays are mutable heap objects.  The heap is a list of rows addressed by
index; the caller's matrix `M` is a list of row addresses `mrefs` and `b`
lives at address `bref`.  `const A = M.map((row, i) => [...row, b[i]])`
allocates fresh rows (spread-copies, one per row the loops touch, at addresses
`st.length + i`); the outer array `A` is itself a fresh local array of row
references, modelled as a `List ℕ` threaded through the loop.  All writes of
the algorithm (`[A[i], A[maxRow]] = [A[maxRow], A[i]]`, `A[i][j] /= factor`,
`A[k][j] -= coeff * A[i][j]`) go through `A`. -/

/-- The mutable heap: a list of JS number-arrays, addressed by index. -/
abbrev Store : Type := List (List ℚ)

/-- Read the array at address `r` (out-of-range reads give `[]`). -/
def hRead (st : Store) (r : ℕ) : List ℚ := st.getD r []

/-- Overwrite the array at address `r` (out-of-range writes are dropped). -/
def hWrite (st : Store) (r : ℕ) (v : List ℚ) : Store := st.set r v

/-- The pivot scan `for (let k = i+1; k < n; k++) if (|A[k][i]| > |A[maxRow][i]|)
maxRow = k`, reading rows through the reference array `ar`. -/
def pivotRowHeap (st : Store) (ar : List ℕ) (n i : ℕ) : ℕ :=
  ((List.range n).drop (i + 1)).foldl
    (fun mr k =>
      if |(hRead st (ar.getD k 0)).getD i 0| > |(hRead st (ar.getD mr 0)).getD i 0| then k
      else mr) i

/-- The row-normalisation loop `for (let j = 0; j <= n; j++) A[i][j] /= factor`
applied to the row's contents. -/
def normalizeRowHeap (n : ℕ) (factor : ℚ) (r : List ℚ) : List ℚ :=
  (List.range (n + 1)).foldl (fun r j => r.set j (r.getD j 0 / factor)) r

/-- The elimination loop `for (let j = 0; j <= n; j++) A[k][j] -= coeff * A[i][j]`
applied to row `k`'s contents (`piv` is row `i`, unchanged while row `k` is
rewritten). -/
def elimRowHeap (n : ℕ) (coeff : ℚ) (piv r : List ℚ) : List ℚ :=
  (List.range (n + 1)).foldl (fun r j => r.set j (r.getD j 0 - coeff * piv.getD j 0)) r

/-- One iteration of the outer loop of `solveLinearSystem`: pivot search, the
reference swap `[A[i], A[maxRow]] = [A[maxRow], A[i]]` (which swaps entries of
the local reference array, not heap rows), pivot-row normalisation, and column
elimination from every other row. -/
def gjStepHeap (n : ℕ) (p : List ℕ × Store) (i : ℕ) : List ℕ × Store :=
  let ar := p.1
  let st := p.2
  let maxRow := pivotRowHeap st ar n i
  let ar2 := (ar.set i (ar.getD maxRow 0)).set maxRow (ar.getD i 0)
  let factor := (hRead st (ar2.getD i 0)).getD i 0
  let st2 := hWrite st (ar2.getD i 0) (normalizeRowHeap n factor (hRead st (ar2.getD i 0)))
  let st3 := (List.range n).foldl
    (fun st k =>
      if k = i then st
      else
        let coeff := (hRead st (ar2.getD k 0)).getD i 0
        hWrite st (ar2.getD k 0)
          (elimRowHeap n coeff (hRead st (ar2.getD i 0)) (hRead st (ar2.getD k 0)))) st2
  (ar2, st3)

/-- Heap-level `solveLinearSystem(M, b)`: `n = b.length`; allocate the fresh
augmented rows `[...M[i], b[i]]` at addresses `st.length + i`, run the
elimination loop on them through the fresh reference array, and read off the
augmented column `A.map(row => row[n])`.  Returns the result vector together
with the final heap. -/
def solveLinearSystemHeap (st : Store) (mrefs : List ℕ) (bref : ℕ) :
    List ℚ × Store :=
  let n := (hRead st bref).length
  let base := st.length
  let st1 := st ++ (List.range n).map
    (fun i => hRead st (mrefs.getD i 0) ++ [(hRead st bref).getD i 0])
  let arefs := (List.range n).map (fun i => base + i)
  let res := (List.range n).foldl (gjStepHeap n) (arefs, st1)
  ((List.range n).map (fun i => (hRead res.2 (res.1.getD i 0)).getD n 0), res.2)

/-- The reference array stays a length-`n` array of fresh addresses (all at or
beyond `base`, the heap size before the call). -/
def ArOk (base n : ℕ) (ar : List ℕ) : Prop :=
  ar.length = n ∧ ∀ k, k < n → base ≤ ar.getD k 0

/-! ## Basic lemmas about validation and construction -/

theorem jsLtB_fin {a b : ℚ} : jsLtB (.fin a) (.fin b) = true ↔ a < b := by
  simp [jsLtB]

theorem jsGtB_fin {a b : ℚ} : jsGtB (.fin a) (.fin b) = true ↔ b < a := by
  simp [jsGtB, jsLtB]

theorem jsGeB_fin {a b : ℚ} : jsGeB (.fin a) (.fin b) = true ↔ b ≤ a := by
  simp [jsGeB, jsLtB]

/-- Successful construction means validation passed and the result is the
constructor body's output. -/
theorem constructSegment_ok {o : MotionSegmentOptions} {s : MotionSegment}
    (h : constructSegment o = .ok s) :
    validateOptions (toJS o) = .ok () ∧ s = buildSegment o := by
  unfold constructSegment at h
  cases hv : validateOptions (toJS o) with
  | error e => rw [hv] at h; simp [Except.map] at h
  | ok u =>
      cases u
      rw [hv] at h
      simp only [Except.map] at h
      exact ⟨rfl, (Except.ok.injEq _ _).mp h |>.symm⟩

/-- Facts recovered from a successful validation of finite-valued options. -/
theorem validate_facts {o : MotionSegmentOptions}
    (h : validateOptions (toJS o) = .ok ()) :
    o.startTime < o.endTime ∧ 0 ≤ o.distance ∧ 0 ≤ o.startVelocity ∧
      (o.segmentType = .constant → o.endVelocity = none) ∧
      (o.segmentType = .jerkLimited →
        o.startAccel.isSome ∧ o.endAccel.isSome ∧
          o.startJerk.isSome ∧ o.endJerk.isSome) ∧
      (o.segmentType = .trapezoidal →
        ∀ cp, o.cruisePercentage = some cp → 0 ≤ cp ∧ cp ≤ 1) := by
  simp only [validateOptions, toJS, jsIsNumber, jsVal, Option.isSome_some, Option.getD_some,
    JSNum.isNaN, Option.isNone_some, Bool.not_true, Bool.or_self, Bool.false_or, Bool.or_false,
    Bool.not_false, Bool.false_eq_true, if_false, Bool.and_eq_true, decide_eq_true_eq] at h
  split_ifs at h with hge hd hv hcv hev hja hjj hcp
  refine ⟨?_, ?_, ?_, ?_, ?_, ?_⟩
  · by_contra hlt
    exact hge (jsGeB_fin.mpr (le_of_not_lt hlt))
  · by_contra hlt
    exact hd (jsLtB_fin.mpr (lt_of_not_le hlt))
  · by_contra hlt
    exact hv (jsLtB_fin.mpr (lt_of_not_le hlt))
  · intro hty
    rcases hvev : o.endVelocity with _ | ev
    · rfl
    · exact absurd ⟨by rw [hty], by simp [hvev]⟩ hcv
  · intro hty
    refine ⟨?_, ?_, ?_, ?_⟩
    · rcases hx : o.startAccel with _ | a
      · exact absurd ⟨by rw [hty], by simp [hx]⟩ hja
      · simp
    · rcases hx : o.endAccel with _ | a
      · exact absurd ⟨by rw [hty], by simp [hx]⟩ hja
      · simp
    · rcases hx : o.startJerk with _ | a
      · exact absurd ⟨by rw [hty], by simp [hx]⟩ hjj
      · simp
    · rcases hx : o.endJerk with _ | a
      · exact absurd ⟨by rw [hty], by simp [hx]⟩ hjj
      · simp
  · intro hty cp hcp'
    constructor
    · by_contra hlt
      refine hcp ⟨⟨by rw [hty], by simp [hcp']⟩, ?_⟩
      rw [Bool.or_eq_true]
      exact Or.inl (by simpa [hcp', jsVal] using jsLtB_fin.mpr (lt_of_not_le hlt))
    · by_contra hlt
      refine hcp ⟨⟨by rw [hty], by simp [hcp']⟩, ?_⟩
      rw [Bool.or_eq_true]
      exact Or.inr (by simpa [hcp', jsVal] using jsGtB_fin.mpr (lt_of_not_le hlt))

/-! ## C4 and C5: validation gaps at the boundaries -/



/-- C4: the claim says construction must fail when the trapezoidal
`cruisePercentage` equals exactly 0 or exactly 1, but the source only rejects
`cruisePercentage < 0 || cruisePercentage > 1`, so both boundary values are
accepted and construction succeeds. -/
theorem c4_cruise_boundary_accepted :
    constructSegment c4OptsZero = .ok (buildSegment c4OptsZero) ∧
      constructSegment c4OptsOne = .ok (buildSegment c4OptsOne) :=
  ⟨rfl, rfl⟩




/-- C5: the claim says construction must raise whenever `startTime` or
`endTime` is non-finite, but `validateOptions` only checks
`typeof === 'number'` (true for `NaN` and `±Infinity`) and
`startTime >= endTime` (false under IEEE semantics for these inputs), so all
three non-finite configurations pass validation — and the remainder of the
constant-shape constructor contains no further throw. -/
theorem c5_nonfinite_times_accepted :
    validateOptions c5NanStart = .ok () ∧
      validateOptions c5InfEnd = .ok () ∧
      validateOptions c5NegInfStart = .ok () :=
  ⟨rfl, rfl, rfl⟩

/-! ## C7: the constant shape -/

/-- C7: for the constant shape the constructor derives
`a0 = af = 2*(distance - v0*T)/T^2` with `T = t1 - t0`, `acceleration(t)`
returns that constant for every `t`, and `velocity(t1) = v0 + a0*T` (so in the
particular case `v0 = 0, distance = 100, T = 10` one gets `acceleration = 2`
everywhere and `velocity(10) = 20` — see the witness). -/
theorem c7_constant_derivation (o : MotionSegmentOptions) (s : MotionSegment)
    (hty : o.segmentType = .constant)
    (h : constructSegment o = .ok s) :
    (∀ t, acceleration s t =
      .ok (2 * (o.distance - o.startVelocity * (o.endTime - o.startTime)) /
        (o.endTime - o.startTime)^2)) ∧
      velocity s o.endTime =
        .ok (o.startVelocity +
          2 * (o.distance - o.startVelocity * (o.endTime - o.startTime)) /
            (o.endTime - o.startTime)^2 * (o.endTime - o.startTime)) := by
  obtain ⟨hv, hs⟩ := constructSegment_ok h
  obtain ⟨hlt, -, -, -, -, -⟩ := validate_facts hv
  subst hs
  constructor
  · intro t
    simp [acceleration, buildSegment, hty, constantAcceleration]
  · have hc : clampDt (buildSegment o) o.endTime = o.endTime - o.startTime := by
      simp only [clampDt, buildSegment]
      rw [if_neg (by exact not_lt.mpr hlt.le), if_neg (lt_irrefl _)]
    simp [velocity, buildSegment, hty, constantVelocity] at hc ⊢
    rw [hc]
    exact Or.inl rfl

/-- Witness for C7 at the spec's concrete instance: `t0 = 0, t1 = 10,
d = 100, v0 = 0` gives `acceleration ≡ 2` and `velocity(10) = 20`. -/
theorem c7_constant_derivation_witness :
    acceleration (buildSegment ⟨0, 10, 100, 0, none, none, none, none, none, .constant, none⟩) 3 =
        .ok 2 ∧
      velocity (buildSegment ⟨0, 10, 100, 0, none, none, none, none, none, .constant, none⟩) 10 =
        .ok 20 := by
  have := c7_constant_derivation
    ⟨0, 10, 100, 0, none, none, none, none, none, .constant, none⟩
    (buildSegment ⟨0, 10, 100, 0, none, none, none, none, none, .constant, none⟩)
    rfl rfl
  refine ⟨?_, ?_⟩
  · rw [this.1 3]; norm_num
  · rw [this.2]; norm_num

/-! ## C6: clamping of the evaluation time -/

theorem construct_t0_lt_t1 {o : MotionSegmentOptions} {s : MotionSegment}
    (h : constructSegment o = .ok s) : s.t0 < s.t1 := by
  obtain ⟨hv, hs⟩ := constructSegment_ok h
  subst hs
  simpa [buildSegment] using (validate_facts hv).1

theorem clampDt_eq_left {s : MotionSegment} {t : ℚ} (h01 : s.t0 ≤ s.t1)
    (h : t ≤ s.t0) : clampDt s t = 0 := by
  rcases lt_or_eq_of_le h with hlt | heq
  · simp [clampDt, hlt]
  · subst heq
    simp [clampDt, not_lt.mpr h01]

theorem clampDt_eq_right {s : MotionSegment} {t : ℚ} (h01 : s.t0 ≤ s.t1)
    (h : s.t1 ≤ t) : clampDt s t = s.t1 - s.t0 := by
  have hn : ¬ t < s.t0 := not_lt.mpr (h01.trans h)
  rcases lt_or_eq_of_le h with hlt | heq
  · simp [clampDt, hn, hlt]
  · subst heq
    simp [clampDt, hn]

theorem clamp01n_eq_left {s : MotionSegment} {t : ℚ} (h01 : s.t0 < s.t1)
    (h : t ≤ s.t0) : clamp01 (normalizedTime s t) = 0 := by
  have hx : normalizedTime s t ≤ 0 :=
    div_nonpos_iff.mpr (Or.inr ⟨sub_nonpos.mpr h, (sub_pos.mpr h01).le⟩)
  have h1 : normalizedTime s t ≤ 1 := hx.trans zero_le_one
  simp [clamp01, min_eq_right h1, max_eq_left hx]

theorem clamp01n_eq_right {s : MotionSegment} {t : ℚ} (h01 : s.t0 < s.t1)
    (h : s.t1 ≤ t) : clamp01 (normalizedTime s t) = 1 := by
  have hT : (0:ℚ) < s.t1 - s.t0 := sub_pos.mpr h01
  have hx : (1:ℚ) ≤ normalizedTime s t := by
    rw [normalizedTime, le_div_iff₀ hT, one_mul]
    exact sub_le_sub_right h _
  simp [clamp01, min_eq_left hx, max_eq_right (zero_le_one.trans hx)]

theorem jlClampDt_eq_left {s : MotionSegment} {t : ℚ} (h01 : s.t0 ≤ s.t1)
    (h : t ≤ s.t0) : jlClampDt s t = 0 := by
  have hT : (0:ℚ) ≤ s.t1 - s.t0 := sub_nonneg.mpr h01
  rcases lt_or_eq_of_le (sub_nonpos.mpr h) with hlt | heq
  · simp [jlClampDt, hlt, not_lt.mpr hT]
  · simp [jlClampDt, heq, not_lt.mpr hT]

theorem jlClampDt_eq_right {s : MotionSegment} {t : ℚ} (h01 : s.t0 ≤ s.t1)
    (h : s.t1 ≤ t) : jlClampDt s t = s.t1 - s.t0 := by
  have hT : (0:ℚ) ≤ s.t1 - s.t0 := sub_nonneg.mpr h01
  have hd : s.t1 - s.t0 ≤ t - s.t0 := sub_le_sub_right h _
  have hn : ¬ t - s.t0 < 0 := not_lt.mpr (hT.trans hd)
  rcases lt_or_eq_of_le hd with hlt | heq
  · simp [jlClampDt, hn, hlt]
  · simp [jlClampDt, ← heq, not_lt.mpr h01]

/-- Every evaluation function depends on `t` only through the clamped time,
so equal clamped times give equal outputs, for every shape. -/
theorem eval_congr_of_clamp (s : MotionSegment) (t t' : ℚ)
    (hc : clampDt s t = clampDt s t')
    (hn : clamp01 (normalizedTime s t) = clamp01 (normalizedTime s t'))
    (hj : jlClampDt s t = jlClampDt s t') :
    position s t = position s t' ∧ velocity s t = velocity s t' ∧
      acceleration s t = acceleration s t' ∧ jerk s t = jerk s t' := by
  cases hty : s.type <;>
    simp only [position, velocity, acceleration, jerk, hty,
      constantPosition, constantVelocity, constantAcceleration,
      triangularPosition, triangularVelocity, triangularAcceleration,
      trapezoidalPosition, trapezoidalVelocity, trapezoidalAcceleration,
      sCurvePosition, sCurveVelocity, sCurveAcceleration, sCurveJerk,
      jerkLimitedPolyEval, hc, hn, hj, and_self]

/-- C6: on a validly constructed segment, each of `position`, `velocity`,
`acceleration`, `jerk` takes the same value at any `t < t0` as at `t0`, and
the same value at any `t > t1` as at `t1` (time is clamped; no extrapolation),
for every shape. -/
theorem c6_clamping (o : MotionSegmentOptions) (s : MotionSegment)
    (h : constructSegment o = .ok s) (t : ℚ) :
    (t < s.t0 →
      position s t = position s s.t0 ∧ velocity s t = velocity s s.t0 ∧
        acceleration s t = acceleration s s.t0 ∧ jerk s t = jerk s s.t0) ∧
      (t > s.t1 →
        position s t = position s s.t1 ∧ velocity s t = velocity s s.t1 ∧
          acceleration s t = acceleration s s.t1 ∧ jerk s t = jerk s s.t1) := by
  have h01 := construct_t0_lt_t1 h
  constructor
  · intro hlt
    exact eval_congr_of_clamp s t s.t0
      (by rw [clampDt_eq_left h01.le hlt.le, clampDt_eq_left h01.le le_rfl])
      (by rw [clamp01n_eq_left h01 hlt.le, clamp01n_eq_left h01 le_rfl])
      (by rw [jlClampDt_eq_left h01.le hlt.le, jlClampDt_eq_left h01.le le_rfl])
  · intro hgt
    exact eval_congr_of_clamp s t s.t1
      (by rw [clampDt_eq_right h01.le hgt.le, clampDt_eq_right h01.le le_rfl])
      (by rw [clamp01n_eq_right h01 hgt.le, clamp01n_eq_right h01 le_rfl])
      (by rw [jlClampDt_eq_right h01.le hgt.le, jlClampDt_eq_right h01.le le_rfl])

/-- Witness for C6 on a concrete segment and times outside the interval. -/
theorem c6_clamping_witness :
    (constructSegment ⟨0, 10, 100, 0, none, none, none, none, none, .constant, none⟩ =
      .ok (buildSegment ⟨0, 10, 100, 0, none, none, none, none, none, .constant, none⟩)) ∧
      ((-1 : ℚ) < (buildSegment ⟨0, 10, 100, 0, none, none, none, none, none, .constant, none⟩).t0 ∧
        position (buildSegment ⟨0, 10, 100, 0, none, none, none, none, none, .constant, none⟩) (-1) =
          position (buildSegment ⟨0, 10, 100, 0, none, none, none, none, none, .constant, none⟩)
            (buildSegment ⟨0, 10, 100, 0, none, none, none, none, none, .constant, none⟩).t0) := by
  have hc : constructSegment
      (⟨0, 10, 100, 0, none, none, none, none, none, .constant, none⟩ : MotionSegmentOptions) =
      .ok (buildSegment ⟨0, 10, 100, 0, none, none, none, none, none, .constant, none⟩) := rfl
  refine ⟨hc, by decide, ?_⟩
  exact ((c6_clamping _ _ hc (-1)).1 (by decide)).1

/-! ## C3: evaluation is total on validly constructed segments -/

theorem construct_coeffs_present {o : MotionSegmentOptions} {s : MotionSegment}
    (h : constructSegment o = .ok s) :
    (s.type = .polynomial → ∃ cs, s.coeffs = some cs) ∧
      (s.type = .jerkLimited → ∃ cs, s.jerkCoeffs = some cs) := by
  obtain ⟨-, hs⟩ := constructSegment_ok h
  subst hs
  constructor
  · intro hp
    simp only [buildSegment] at hp ⊢
    rw [if_pos hp]
    exact ⟨_, rfl⟩
  · intro hp
    simp only [buildSegment] at hp ⊢
    rw [if_pos hp]
    exact ⟨_, rfl⟩

/-- C3: on a validly constructed segment, `position`, `velocity`,
`acceleration` and `jerk` return a value (never an error) at every rational
`t`, inside or outside `[t0, t1]`: the missing-coefficient throw branches are
unreachable because construction populates the coefficients exactly for the
shapes that read them, and the unknown-segment-type branch has no counterpart
in the closed `SegmentType` enumeration. -/
theorem c3_eval_never_throws (o : MotionSegmentOptions) (s : MotionSegment)
    (h : constructSegment o = .ok s) (t : ℚ) :
    (∃ v, position s t = .ok v) ∧ (∃ v, velocity s t = .ok v) ∧
      (∃ v, acceleration s t = .ok v) ∧ (∃ v, jerk s t = .ok v) := by
  obtain ⟨hpoly, hjl⟩ := construct_coeffs_present h
  cases hty : s.type
  case polynomial =>
    obtain ⟨cs, hcs⟩ := hpoly hty
    simp only [position, velocity, acceleration, jerk, hty, hcs]
    exact ⟨⟨_, rfl⟩, ⟨_, rfl⟩, ⟨_, rfl⟩, ⟨_, rfl⟩⟩
  case jerkLimited =>
    obtain ⟨cs, hcs⟩ := hjl hty
    simp only [position, velocity, acceleration, jerk, hty, hcs]
    exact ⟨⟨_, rfl⟩, ⟨_, rfl⟩, ⟨_, rfl⟩, ⟨_, rfl⟩⟩
  all_goals
    simp only [position, velocity, acceleration, jerk, hty]
    exact ⟨⟨_, rfl⟩, ⟨_, rfl⟩, ⟨_, rfl⟩, ⟨_, rfl⟩⟩

/-- Witness for C3 on a concrete jerk-limited segment and an out-of-range time. -/
theorem c3_eval_never_throws_witness :
    (constructSegment
        (⟨0, 10, 100, 0, some 0, some 1, some (-1), some 2, some (-2), .jerkLimited, none⟩ :
          MotionSegmentOptions) =
      .ok (buildSegment ⟨0, 10, 100, 0, some 0, some 1, some (-1), some 2, some (-2),
        .jerkLimited, none⟩)) ∧
      ((∃ v, position (buildSegment ⟨0, 10, 100, 0, some 0, some 1, some (-1), some 2, some (-2),
          .jerkLimited, none⟩) 42 = .ok v) ∧
        (∃ v, velocity (buildSegment ⟨0, 10, 100, 0, some 0, some 1, some (-1), some 2, some (-2),
          .jerkLimited, none⟩) 42 = .ok v) ∧
        (∃ v, acceleration (buildSegment ⟨0, 10, 100, 0, some 0, some 1, some (-1), some 2,
          some (-2), .jerkLimited, none⟩) 42 = .ok v) ∧
        (∃ v, jerk (buildSegment ⟨0, 10, 100, 0, some 0, some 1, some (-1), some 2, some (-2),
          .jerkLimited, none⟩) 42 = .ok v)) := by
  have hc : constructSegment
      (⟨0, 10, 100, 0, some 0, some 1, some (-1), some 2, some (-2), .jerkLimited, none⟩ :
        MotionSegmentOptions) =
      .ok (buildSegment ⟨0, 10, 100, 0, some 0, some 1, some (-1), some 2, some (-2),
        .jerkLimited, none⟩) := rfl
  exact ⟨hc, c3_eval_never_throws _ _ hc 42⟩

/-! ## C2: correctness of the linear solver -/

theorem augmentMat_castSucc {n : ℕ} (M : Matrix (Fin n) (Fin n) ℚ) (b : Fin n → ℚ)
    (r : Fin n) (c : Fin n) : augmentMat M b r c.castSucc = M r c := by
  simp only [augmentMat, Matrix.of_apply, Fin.coe_castSucc]
  rw [dif_pos c.isLt]

theorem augmentMat_last {n : ℕ} (M : Matrix (Fin n) (Fin n) ℚ) (b : Fin n → ℚ)
    (r : Fin n) : augmentMat M b r (Fin.last n) = b r := by
  simp only [augmentMat, Matrix.of_apply, Fin.val_last]
  rw [dif_neg (lt_irrefl n)]

theorem leftBlock_augmentMat {n : ℕ} (M : Matrix (Fin n) (Fin n) ℚ) (b : Fin n → ℚ) :
    leftBlock (augmentMat M b) = M := by
  ext r c
  exact augmentMat_castSucc M b r c

theorem leftBlock_mul {n : ℕ} (E : Matrix (Fin n) (Fin n) ℚ)
    (A : Matrix (Fin n) (Fin (n + 1)) ℚ) :
    leftBlock (E * A) = E * leftBlock A := by
  ext r c
  simp [leftBlock, Matrix.mul_apply]

theorem pivot_fold_spec {n : ℕ} (A : Matrix (Fin n) (Fin (n + 1)) ℚ)
    (ci : Fin (n + 1)) (l : List (Fin n)) (b : Fin n) :
    (l.foldl (fun best k => if |A k ci| > |A best ci| then k else best) b = b ∨
        l.foldl (fun best k => if |A k ci| > |A best ci| then k else best) b ∈ l) ∧
      |A b ci| ≤ |A (l.foldl (fun best k => if |A k ci| > |A best ci| then k else best) b) ci| ∧
      ∀ k ∈ l,
        |A k ci| ≤ |A (l.foldl (fun best k => if |A k ci| > |A best ci| then k else best) b) ci| := by
  induction l generalizing b with
  | nil => exact ⟨Or.inl rfl, le_rfl, by simp⟩
  | cons x xs ih =>
      simp only [List.foldl_cons]
      by_cases hcmp : |A x ci| > |A b ci|
      · rw [if_pos hcmp]
        obtain ⟨hmem, hb, hall⟩ := ih x
        refine ⟨?_, hcmp.le.trans hb, ?_⟩
        · rcases hmem with hm | hm
          · exact Or.inr (by rw [hm]; exact List.mem_cons_self x xs)
          · exact Or.inr (List.mem_cons_of_mem x hm)
        · intro k hk
          rcases List.mem_cons.mp hk with hk | hk
          · exact hk ▸ hb
          · exact hall k hk
      · rw [if_neg hcmp]
        obtain ⟨hmem, hb, hall⟩ := ih b
        refine ⟨?_, hb, ?_⟩
        · rcases hmem with hm | hm
          · exact Or.inl hm
          · exact Or.inr (List.mem_cons_of_mem x hm)
        · intro k hk
          rcases List.mem_cons.mp hk with hk | hk
          · exact hk ▸ ((not_lt.mp hcmp).trans hb)
          · exact hall k hk

theorem mem_finRange_drop_iff {n i : ℕ} {k : Fin n} :
    k ∈ (List.finRange n).drop i ↔ i ≤ (k : ℕ) := by
  constructor
  · intro h
    obtain ⟨j, hj, hk⟩ := List.mem_iff_getElem.mp h
    rw [List.getElem_drop, List.getElem_finRange] at hk
    have hv := congrArg Fin.val hk
    simp only [Fin.coe_cast] at hv
    omega
  · intro h
    refine List.mem_iff_getElem.mpr ⟨(k : ℕ) - i, ?_, ?_⟩
    · rw [List.length_drop, List.length_finRange]
      omega
    · rw [List.getElem_drop, List.getElem_finRange]
      have hv : i + ((k : ℕ) - i) = (k : ℕ) := by omega
      apply Fin.ext
      simp [hv]

theorem pivotSearch_ge {n : ℕ} (A : Matrix (Fin n) (Fin (n + 1)) ℚ) (i : Fin n) :
    i ≤ pivotSearch A i := by
  rw [pivotSearch]
  obtain ⟨hmem, -, -⟩ := pivot_fold_spec A i.castSucc ((List.finRange n).drop (i.1 + 1)) i
  rcases hmem with hm | hm
  · rw [hm]
  · have := mem_finRange_drop_iff.mp hm
    exact Fin.le_def.mpr (by omega)

theorem pivotSearch_max {n : ℕ} (A : Matrix (Fin n) (Fin (n + 1)) ℚ) (i : Fin n)
    (k : Fin n) (hk : i ≤ k) :
    |A k i.castSucc| ≤ |A (pivotSearch A i) i.castSucc| := by
  rw [pivotSearch]
  obtain ⟨-, hb, hall⟩ := pivot_fold_spec A i.castSucc ((List.finRange n).drop (i.1 + 1)) i
  rcases eq_or_lt_of_le hk with heq | hlt
  · exact heq ▸ hb
  · refine hall k (mem_finRange_drop_iff.mpr ?_)
    have := Fin.lt_def.mp hlt
    omega

theorem swapRowsOp_eq_mul {n : ℕ} (A : Matrix (Fin n) (Fin (n + 1)) ℚ) (i m : Fin n) :
    swapRowsOp A i m = ((Equiv.swap i m).permMatrix ℚ) * A := by
  rw [Equiv.Perm.permMatrix, PEquiv.toPEquiv_mul_matrix]
  ext r c
  simp [swapRowsOp, Matrix.submatrix_apply]

theorem swap_permMatrix_det_isUnit {n : ℕ} (i m : Fin n) :
    IsUnit (((Equiv.swap i m).permMatrix ℚ)).det := by
  rw [Matrix.det_permutation]
  rcases Int.units_eq_one_or (Equiv.Perm.sign (Equiv.swap i m)) with h | h <;>
    rw [h] <;> simp

theorem normRowOp_eq_mul {n : ℕ} (A : Matrix (Fin n) (Fin (n + 1)) ℚ) (i : Fin n) :
    normRowOp A i =
      Matrix.diagonal (fun r => if r = i then (A i i.castSucc)⁻¹ else 1) * A := by
  ext r c
  rw [Matrix.diagonal_mul]
  by_cases hr : r = i
  · subst hr
    simp [normRowOp, div_eq_inv_mul]
  · simp [normRowOp, hr]

theorem normRowOp_det_isUnit {n : ℕ} (A : Matrix (Fin n) (Fin (n + 1)) ℚ) (i : Fin n)
    (hp : A i i.castSucc ≠ 0) :
    IsUnit (Matrix.diagonal (fun r => if r = i then (A i i.castSucc)⁻¹ else 1)).det := by
  rw [Matrix.det_diagonal]
  refine isUnit_iff_ne_zero.mpr (Finset.prod_ne_zero_iff.mpr fun r _ => ?_)
  by_cases hr : r = i
  · simpa [hr] using inv_ne_zero hp
  · simp [hr]

theorem elimColOp_eq_mul {n : ℕ} (A : Matrix (Fin n) (Fin (n + 1)) ℚ) (i : Fin n) :
    elimColOp A i = (1 - elimU A i) * A := by
  ext r c
  rw [Matrix.sub_mul, Matrix.one_mul, Matrix.sub_apply, Matrix.mul_apply]
  have hsum : ∑ k, elimU A i r k * A k c = (if r = i then 0 else A r i.castSucc) * A i c := by
    rw [Finset.sum_eq_single i]
    · by_cases hr : r = i <;> simp [elimU, hr]
    · intro k _ hk
      simp [elimU, hk]
    · simp
  rw [hsum]
  by_cases hr : r = i <;> simp [elimColOp, hr]

theorem elimU_sq_zero {n : ℕ} (A : Matrix (Fin n) (Fin (n + 1)) ℚ) (i : Fin n) :
    elimU A i * elimU A i = 0 := by
  ext r c
  rw [Matrix.mul_apply]
  refine Finset.sum_eq_zero fun k _ => ?_
  by_cases hk : k = i
  · subst hk
    simp [elimU]
  · simp [elimU, hk]

theorem elimColOp_det_isUnit {n : ℕ} (A : Matrix (Fin n) (Fin (n + 1)) ℚ) (i : Fin n) :
    IsUnit (1 - elimU A i).det := by
  have hmul : (1 - elimU A i) * (1 + elimU A i) = 1 := by
    have hexp : (1 - elimU A i) * (1 + elimU A i) = 1 - elimU A i * elimU A i := by
      noncomm_ring
    rw [hexp, elimU_sq_zero, sub_zero]
  exact isUnit_of_mul_eq_one _ _ (by rw [← Matrix.det_mul, hmul, Matrix.det_one])

theorem gjStep_eq_mul {n : ℕ} (A : Matrix (Fin n) (Fin (n + 1)) ℚ) (i : Fin n)
    (hp : A (pivotSearch A i) i.castSucc ≠ 0) :
    ∃ E : Matrix (Fin n) (Fin n) ℚ, IsUnit E.det ∧ gjStep A i = E * A := by
  set m := pivotSearch A i with hm
  set A1 := swapRowsOp A i m with hA1
  set A2 := normRowOp A1 i with hA2
  have hp1 : A1 i i.castSucc ≠ 0 := by
    rw [hA1]
    simpa [swapRowsOp, Equiv.swap_apply_left] using hp
  refine ⟨(1 - elimU A2 i) *
    (Matrix.diagonal (fun r => if r = i then (A1 i i.castSucc)⁻¹ else 1) *
      ((Equiv.swap i m).permMatrix ℚ)), ?_, ?_⟩
  · rw [Matrix.det_mul, Matrix.det_mul]
    exact (elimColOp_det_isUnit A2 i).mul
      ((normRowOp_det_isUnit A1 i hp1).mul (swap_permMatrix_det_isUnit i m))
  · show elimColOp A2 i = _
    rw [elimColOp_eq_mul, hA2, normRowOp_eq_mul, hA1, swapRowsOp_eq_mul]
    rw [Matrix.mul_assoc, Matrix.mul_assoc]

theorem gjStep_identity {n : ℕ} (A : Matrix (Fin n) (Fin (n + 1)) ℚ) (i : Fin n)
    (hid : ∀ r c : Fin n, (c : ℕ) < i.1 → A r c.castSucc = if r = c then 1 else 0)
    (hp : A (pivotSearch A i) i.castSucc ≠ 0) :
    ∀ r c : Fin n, (c : ℕ) < i.1 + 1 → gjStep A i r c.castSucc = if r = c then 1 else 0 := by
  set m := pivotSearch A i with hm
  have him : i ≤ m := pivotSearch_ge A i
  set A1 := swapRowsOp A i m with hA1
  have hp1 : A1 i i.castSucc ≠ 0 := by
    rw [hA1]
    simpa [swapRowsOp, Equiv.swap_apply_left] using hp
  have hA1id : ∀ r c : Fin n, (c : ℕ) < i.1 → A1 r c.castSucc = if r = c then 1 else 0 := by
    intro r c hc
    rw [hA1]
    simp only [swapRowsOp, Matrix.of_apply]
    by_cases hri : r = i
    · subst hri
      rw [Equiv.swap_apply_left, hid m c hc, if_neg, if_neg]
      · exact fun h => absurd (h ▸ hc) (by omega)
      · exact fun h => absurd hc (by have := Fin.le_def.mp him; omega)
    · by_cases hrm : r = m
      · subst hrm
        rw [Equiv.swap_apply_right, hid i c hc, if_neg, if_neg]
        · exact fun h => absurd hc (by have := Fin.le_def.mp him; omega)
        · exact fun h => absurd (h ▸ hc) (by omega)
      · rw [Equiv.swap_apply_of_ne_of_ne hri hrm, hid r c hc]
  set A2 := normRowOp A1 i with hA2
  have hA2id : ∀ r c : Fin n, (c : ℕ) < i.1 → A2 r c.castSucc = if r = c then 1 else 0 := by
    intro r c hc
    rw [hA2]
    simp only [normRowOp, Matrix.of_apply]
    by_cases hri : r = i
    · have hic : i ≠ c := fun h => absurd (h ▸ hc) (by omega)
      rw [if_pos hri, hri, hA1id i c hc, if_neg hic, zero_div]
    · rw [if_neg hri, hA1id r c hc]
  have hA2piv : A2 i i.castSucc = 1 := by
    rw [hA2]
    simp only [normRowOp, Matrix.of_apply, if_pos rfl]
    exact div_self hp1
  intro r c hc
  show elimColOp A2 i r c.castSucc = _
  simp only [elimColOp, Matrix.of_apply]
  rcases Nat.lt_succ_iff_lt_or_eq.mp hc with hlt | heqc
  · have hceq : c ≠ i := fun h => absurd (h ▸ hlt) (by omega)
    by_cases hri : r = i
    · rw [if_pos hri, hri, hA2id i c hlt]
    · rw [if_neg hri, hA2id r c hlt, hA2id i c hlt,
        if_neg (fun h : i = c => hceq h.symm), mul_zero, sub_zero]
  · have hceq : c = i := Fin.ext heqc
    subst hceq
    by_cases hri : r = c
    · rw [if_pos hri, hri, hA2piv, if_pos rfl]
    · rw [if_neg hri, hA2piv, mul_one, sub_self, if_neg hri]

theorem exists_pivot {n : ℕ} {A₀ A : Matrix (Fin n) (Fin (n + 1)) ℚ}
    (hdet : (leftBlock A₀).det ≠ 0) (i : Fin n) (hinv : gjInv A₀ i.1 A) :
    ∃ k, i ≤ k ∧ A k i.castSucc ≠ 0 := by
  by_contra hcon
  push_neg at hcon
  obtain ⟨⟨E, hEu, hAE⟩, hid⟩ := hinv
  have hB : (leftBlock A).det ≠ 0 := by
    rw [hAE, leftBlock_mul, Matrix.det_mul]
    exact mul_ne_zero hEu.ne_zero hdet
  set B := leftBlock A with hBdef
  have hBid : ∀ r c : Fin n, (c : ℕ) < i.1 → B r c = if r = c then 1 else 0 :=
    fun r c hc => hid r c hc
  have hBcol : ∀ k, i ≤ k → B k i = 0 := fun k hk => hcon k hk
  set w : Fin n → ℚ := fun j => if (j : ℕ) < i.1 then B j i else 0 with hw
  set v : Fin n → ℚ := w - Pi.single i 1 with hv
  have hvne : v ≠ 0 := by
    intro h
    have h2 := congrFun h i
    simp [hv, hw, Pi.single_eq_same] at h2
  have hmv : B.mulVec v = 0 := by
    rw [hv, Matrix.mulVec_sub]
    funext r
    have hsingle : B.mulVec (Pi.single i 1) r = B r i := by
      rw [Matrix.mulVec_single]
      exact mul_one _
    have hwr : B.mulVec w r =
        ∑ j ∈ Finset.univ.filter (fun j : Fin n => (j : ℕ) < i.1), B r j * B j i := by
      rw [Matrix.mulVec, Matrix.dotProduct, Finset.sum_filter]
      refine Finset.sum_congr rfl fun j _ => ?_
      simp only [hw]
      by_cases hj : (j : ℕ) < i.1
      · rw [if_pos hj, if_pos hj]
      · rw [if_neg hj, if_neg hj, mul_zero]
    by_cases hr : (r : ℕ) < i.1
    · have hsum : ∑ j ∈ Finset.univ.filter (fun j : Fin n => (j : ℕ) < i.1),
          B r j * B j i = B r i := by
        rw [Finset.sum_eq_single_of_mem r
          (by simp only [Finset.mem_filter, Finset.mem_univ, true_and]; exact hr)]
        · rw [hBid r r hr, if_pos rfl, one_mul]
        · intro j hj hne
          rw [hBid r j (by simpa using (Finset.mem_filter.mp hj).2),
            if_neg (fun h : r = j => hne h.symm), zero_mul]
      simp only [Pi.sub_apply, hsingle, hwr, hsum, sub_self, Pi.zero_apply]
    · have hsum : ∑ j ∈ Finset.univ.filter (fun j : Fin n => (j : ℕ) < i.1),
          B r j * B j i = 0 := by
        refine Finset.sum_eq_zero fun j hj => ?_
        have hji : (j : ℕ) < i.1 := by simpa using (Finset.mem_filter.mp hj).2
        rw [hBid r j hji, if_neg (fun h => absurd (h ▸ hr) (by simp [hji])), zero_mul]
      have hri : B r i = 0 := hBcol r (Fin.le_def.mpr (not_lt.mp hr))
      simp only [Pi.sub_apply, hsingle, hwr, hsum, hri, sub_self, Pi.zero_apply]
  exact hB (Matrix.exists_mulVec_eq_zero_iff.mp ⟨v, hvne, hmv⟩)

theorem gjStep_inv {n : ℕ} {A₀ A : Matrix (Fin n) (Fin (n + 1)) ℚ}
    (hdet : (leftBlock A₀).det ≠ 0) (i : Fin n) (hinv : gjInv A₀ i.1 A) :
    gjInv A₀ (i.1 + 1) (gjStep A i) := by
  obtain ⟨k₀, hk₀, hk₀ne⟩ := exists_pivot hdet i hinv
  have hp : A (pivotSearch A i) i.castSucc ≠ 0 := by
    intro h0
    have hmax := pivotSearch_max A i k₀ hk₀
    rw [h0] at hmax
    simp only [abs_zero] at hmax
    exact hk₀ne (abs_nonpos_iff.mp hmax)
  obtain ⟨⟨E, hEu, hAE⟩, hid⟩ := hinv
  refine ⟨?_, gjStep_identity A i hid hp⟩
  obtain ⟨E', hE'u, hE'⟩ := gjStep_eq_mul A i hp
  exact ⟨E' * E, by rw [Matrix.det_mul]; exact hE'u.mul hEu,
    by rw [hE', hAE, Matrix.mul_assoc]⟩

theorem gauss_suffix_inv {n : ℕ} (A₀ : Matrix (Fin n) (Fin (n + 1)) ℚ)
    (hdet : (leftBlock A₀).det ≠ 0) :
    ∀ (fuel j : ℕ) (A : Matrix (Fin n) (Fin (n + 1)) ℚ), n - j = fuel → j ≤ n →
      gjInv A₀ j A →
      gjInv A₀ n (((List.finRange n).drop j).foldl gjStep A) := by
  intro fuel
  induction fuel with
  | zero =>
      intro j A hfuel hj hinv
      have hjn : j = n := by omega
      subst hjn
      rw [List.drop_eq_nil_of_le (by simp [List.length_finRange])]
      simpa using hinv
  | succ k ih =>
      intro j A hfuel hj hinv
      have hjn : j < n := by omega
      have hlen : j < (List.finRange n).length := by
        simpa [List.length_finRange] using hjn
      rw [List.drop_eq_getElem_cons hlen, List.foldl_cons]
      have hgetj : (List.finRange n)[j] = (⟨j, hjn⟩ : Fin n) := by
        rw [List.getElem_finRange]
        apply Fin.ext
        simp
      rw [hgetj]
      exact ih (j + 1) (gjStep A ⟨j, hjn⟩) (by omega) (by omega)
        (gjStep_inv hdet ⟨j, hjn⟩ hinv)

theorem gaussianElim_inv {n : ℕ} (A₀ : Matrix (Fin n) (Fin (n + 1)) ℚ)
    (hdet : (leftBlock A₀).det ≠ 0) : gjInv A₀ n (gaussianElim A₀) := by
  have h0 : gjInv A₀ 0 A₀ :=
    ⟨⟨1, by simp, by rw [Matrix.one_mul]⟩, fun r c hc => absurd hc (by omega)⟩
  have h := gauss_suffix_inv A₀ hdet n 0 A₀ (by omega) (by omega) h0
  simpa [gaussianElim] using h

/-- C2: for every nonsingular `n × n` matrix `M` over `ℚ` and every
right-hand side `b`, the Gaussian elimination with partial pivoting
implemented by `solveLinearSystem` (augment `[M|b]`, pick the remaining row of
maximal absolute value in each pivot column, swap it into place, divide by the
pivot, and eliminate the column from every other row, then read off the
augmented column) returns a vector `x` with `M ⬝ x = b`. -/
theorem solveLinearSystem_correct {n : ℕ} (M : Matrix (Fin n) (Fin n) ℚ)
    (b : Fin n → ℚ) (hdet : M.det ≠ 0) :
    M.mulVec (solveLinearSystem M b) = b := by
  have hlb : leftBlock (augmentMat M b) = M := leftBlock_augmentMat M b
  obtain ⟨⟨E, hEu, hAE⟩, hid⟩ :=
    gaussianElim_inv (augmentMat M b) (by rw [hlb]; exact hdet)
  have hEM : E * M = 1 := by
    ext r c
    have h1 := hid r c c.isLt
    rw [hAE] at h1
    have h2 : (E * augmentMat M b) r c.castSucc = (E * M) r c := by
      rw [Matrix.mul_apply, Matrix.mul_apply]
      exact Finset.sum_congr rfl fun k _ => by rw [augmentMat_castSucc]
    rw [h2] at h1
    rw [h1, Matrix.one_apply]
  have hME : M * E = 1 := Matrix.mul_eq_one_comm.mp hEM
  have hsol : solveLinearSystem M b = E.mulVec b := by
    funext r
    show gaussianElim (augmentMat M b) r (Fin.last n) = _
    rw [hAE, Matrix.mul_apply, Matrix.mulVec, Matrix.dotProduct]
    exact Finset.sum_congr rfl fun k _ => by rw [augmentMat_last]
  rw [hsol, Matrix.mulVec_mulVec, hME, Matrix.one_mulVec]

/-- Witness for C2 on a concrete nonsingular 2×2 system. -/
theorem solveLinearSystem_correct_witness :
    (Matrix.det !![(1:ℚ), 2; 3, 4] ≠ 0) ∧
      (!![(1:ℚ), 2; 3, 4]).mulVec (solveLinearSystem !![(1:ℚ), 2; 3, 4] ![5, 6]) =
        ![5, 6] := by
  have hdet : Matrix.det !![(1:ℚ), 2; 3, 4] ≠ 0 := by
    rw [Matrix.det_fin_two_of]
    norm_num
  exact ⟨hdet, solveLinearSystem_correct _ _ hdet⟩

/-! ## Nonsingularity of the three boundary-condition matrices -/

theorem cubicM_mul_inv : cubicM 1 * cubicMInvOne = 1 := by
  ext i j
  fin_cases i <;> fin_cases j <;>
    norm_num [cubicM, cubicMInvOne, Matrix.mul_apply, Fin.sum_univ_succ, Matrix.one_apply] <;>
    decide

theorem cubicM_factor (T : ℚ) (hT : T ≠ 0) :
    cubicM T = Matrix.diagonal ![1, 1/T, 1, 1/T] * cubicM 1 *
      Matrix.diagonal ![1, T, T^2, T^3] := by
  ext i j
  rw [Matrix.mul_assoc, Matrix.diagonal_mul, Matrix.mul_diagonal]
  fin_cases i <;> fin_cases j <;>
    simp [cubicM, Matrix.vecHead, Matrix.vecTail] <;> field_simp <;> ring

theorem cubicM_det_ne_zero {T : ℚ} (hT : T ≠ 0) : (cubicM T).det ≠ 0 := by
  rw [cubicM_factor T hT, Matrix.det_mul, Matrix.det_mul]
  refine mul_ne_zero (mul_ne_zero ?_ ?_) ?_
  · rw [Matrix.det_diagonal]
    refine Finset.prod_ne_zero_iff.mpr fun r _ => ?_
    fin_cases r <;> simp [Matrix.vecHead, Matrix.vecTail] <;> exact hT
  · exact Matrix.det_ne_zero_of_right_inverse cubicM_mul_inv
  · rw [Matrix.det_diagonal]
    refine Finset.prod_ne_zero_iff.mpr fun r _ => ?_
    fin_cases r <;>
      simp only [Matrix.cons_val_succ', Matrix.cons_val_zero, Matrix.cons_val_fin_one] <;>
      simp [hT]

theorem quinticM_mul_inv : quinticM 1 * quinticMInvOne = 1 := by
  ext i j
  fin_cases i <;> fin_cases j <;>
    norm_num [quinticM, quinticMInvOne, Matrix.mul_apply, Fin.sum_univ_succ,
      Matrix.one_apply] <;>
    decide

theorem quinticM_factor (T : ℚ) (hT : T ≠ 0) :
    quinticM T = Matrix.diagonal ![1, 1/T, 1/T^2, 1, 1/T, 1/T^2] * quinticM 1 *
      Matrix.diagonal ![1, T, T^2, T^3, T^4, T^5] := by
  ext i j
  rw [Matrix.mul_assoc, Matrix.diagonal_mul, Matrix.mul_diagonal]
  fin_cases i <;> fin_cases j <;>
    simp only [quinticM, Matrix.cons_val_succ', Matrix.cons_val_zero,
      Matrix.cons_val_fin_one, Matrix.of_apply] <;>
    (try norm_num) <;> (try field_simp) <;> (try ring)

theorem quinticM_det_ne_zero {T : ℚ} (hT : T ≠ 0) : (quinticM T).det ≠ 0 := by
  rw [quinticM_factor T hT, Matrix.det_mul, Matrix.det_mul]
  refine mul_ne_zero (mul_ne_zero ?_ ?_) ?_
  · rw [Matrix.det_diagonal]
    refine Finset.prod_ne_zero_iff.mpr fun r _ => ?_
    fin_cases r <;>
      simp only [Matrix.cons_val_succ', Matrix.cons_val_zero, Matrix.cons_val_fin_one] <;>
      simp [hT]
  · exact Matrix.det_ne_zero_of_right_inverse quinticM_mul_inv
  · rw [Matrix.det_diagonal]
    refine Finset.prod_ne_zero_iff.mpr fun r _ => ?_
    fin_cases r <;>
      simp only [Matrix.cons_val_succ', Matrix.cons_val_zero, Matrix.cons_val_fin_one] <;>
      simp [hT]

set_option maxHeartbeats 2000000 in
theorem septicM_mul_inv : septicM 1 * septicMInvOne = 1 := by
  ext i j
  fin_cases i <;> fin_cases j <;>
    simp only [septicM, septicMInvOne, Matrix.mul_apply, Fin.sum_univ_succ, Fin.sum_univ_zero,
      Matrix.cons_val_succ', Matrix.cons_val_succ, Matrix.cons_val_zero,
      Matrix.cons_val_fin_one, Matrix.of_apply, Matrix.one_apply] <;>
    norm_num <;> decide

theorem septicM_factor (T : ℚ) (hT : T ≠ 0) :
    septicM T =
      Matrix.diagonal ![1, 1/T, 1/T^2, 1/T^3, 1, 1/T, 1/T^2, 1/T^3] * septicM 1 *
        Matrix.diagonal ![1, T, T^2, T^3, T^4, T^5, T^6, T^7] := by
  ext i j
  rw [Matrix.mul_assoc, Matrix.diagonal_mul, Matrix.mul_diagonal]
  fin_cases i <;> fin_cases j <;>
    simp only [septicM, Matrix.cons_val_succ', Matrix.cons_val_zero,
      Matrix.cons_val_fin_one, Matrix.of_apply] <;>
    (try norm_num) <;> (try field_simp) <;> (try ring)

theorem septicM_diag_left_unit (T : ℚ) (hT : T ≠ 0) :
    (Matrix.diagonal (![1, 1/T, 1/T^2, 1/T^3, 1, 1/T, 1/T^2, 1/T^3] : Fin 8 → ℚ)) *
      (Matrix.diagonal (![1, T, T^2, T^3, 1, T, T^2, T^3] : Fin 8 → ℚ)) = 1 := by
  rw [Matrix.diagonal_mul_diagonal]
  have hvec : (fun i => (![1, 1/T, 1/T^2, 1/T^3, 1, 1/T, 1/T^2, 1/T^3] : Fin 8 → ℚ) i *
      (![1, T, T^2, T^3, 1, T, T^2, T^3] : Fin 8 → ℚ) i) = fun _ => (1:ℚ) := by
    funext i
    fin_cases i <;>
      simp only [Matrix.cons_val_succ', Matrix.cons_val_zero, Matrix.cons_val_fin_one] <;>
      field_simp
  rw [hvec, Matrix.diagonal_one]

theorem septicM_diag_right_unit (T : ℚ) (hT : T ≠ 0) :
    (Matrix.diagonal (![1, T, T^2, T^3, T^4, T^5, T^6, T^7] : Fin 8 → ℚ)) *
      (Matrix.diagonal
        (![1, 1/T, 1/T^2, 1/T^3, 1/T^4, 1/T^5, 1/T^6, 1/T^7] : Fin 8 → ℚ)) = 1 := by
  rw [Matrix.diagonal_mul_diagonal]
  have hvec : (fun i => (![1, T, T^2, T^3, T^4, T^5, T^6, T^7] : Fin 8 → ℚ) i *
      (![1, 1/T, 1/T^2, 1/T^3, 1/T^4, 1/T^5, 1/T^6, 1/T^7] : Fin 8 → ℚ) i) =
      fun _ => (1:ℚ) := by
    funext i
    fin_cases i <;>
      simp only [Matrix.cons_val_succ', Matrix.cons_val_zero, Matrix.cons_val_fin_one] <;>
      field_simp
  rw [hvec, Matrix.diagonal_one]

theorem septicM_det_ne_zero {T : ℚ} (hT : T ≠ 0) : (septicM T).det ≠ 0 := by
  have h1 := septicM_diag_left_unit T hT
  have h2 := septicM_diag_right_unit T hT
  refine Matrix.det_ne_zero_of_right_inverse
    (B := Matrix.diagonal (![1, 1/T, 1/T^2, 1/T^3, 1/T^4, 1/T^5, 1/T^6, 1/T^7] : Fin 8 → ℚ) *
      (septicMInvOne *
        Matrix.diagonal (![1, T, T^2, T^3, 1, T, T^2, T^3] : Fin 8 → ℚ))) ?_
  rw [septicM_factor T hT]
  have hstep2 : ∀ X : Matrix (Fin 8) (Fin 8) ℚ,
      Matrix.diagonal (![1, T, T^2, T^3, T^4, T^5, T^6, T^7] : Fin 8 → ℚ) *
        (Matrix.diagonal
          (![1, 1/T, 1/T^2, 1/T^3, 1/T^4, 1/T^5, 1/T^6, 1/T^7] : Fin 8 → ℚ) * X) = X :=
    fun X => by rw [← Matrix.mul_assoc, h2, Matrix.one_mul]
  have hstepM : ∀ X : Matrix (Fin 8) (Fin 8) ℚ, septicM 1 * (septicMInvOne * X) = X :=
    fun X => by rw [← Matrix.mul_assoc, septicM_mul_inv, Matrix.one_mul]
  simp only [Matrix.mul_assoc]
  rw [hstep2, hstepM, h1]

/-! ## Boundary values of the fitted polynomials -/

theorem ofFn_four (x : Fin 4 → ℚ) : List.ofFn x = [x 0, x 1, x 2, x 3] := rfl

theorem ofFn_six (x : Fin 6 → ℚ) : List.ofFn x = [x 0, x 1, x 2, x 3, x 4, x 5] := rfl

theorem ofFn_eight (x : Fin 8 → ℚ) :
    List.ofFn x = [x 0, x 1, x 2, x 3, x 4, x 5, x 6, x 7] := rfl

theorem polyEvalBase_ofFn_four (x : Fin 4 → ℚ) (dt : ℚ) :
    polyEvalBase (List.ofFn x) dt = x 0 + x 1 * dt + x 2 * dt^2 + x 3 * dt^3 := by
  rw [ofFn_four]
  simp [polyEvalBase, List.enum_cons, List.enumFrom]
  try ring

theorem polyEvalD1_ofFn_four (x : Fin 4 → ℚ) (dt : ℚ) :
    polyEvalD1 (List.ofFn x) dt = x 1 + x 2 * (2 * dt) + x 3 * (3 * dt^2) := by
  rw [ofFn_four]
  simp [polyEvalD1, List.enum_cons, List.enumFrom]
  try ring

theorem polyEvalBase_ofFn_six (x : Fin 6 → ℚ) (dt : ℚ) :
    polyEvalBase (List.ofFn x) dt =
      x 0 + x 1 * dt + x 2 * dt^2 + x 3 * dt^3 + x 4 * dt^4 + x 5 * dt^5 := by
  rw [ofFn_six]
  simp [polyEvalBase, List.enum_cons, List.enumFrom]
  try ring

theorem polyEvalBase_ofFn_eight (x : Fin 8 → ℚ) (dt : ℚ) :
    polyEvalBase (List.ofFn x) dt =
      x 0 + x 1 * dt + x 2 * dt^2 + x 3 * dt^3 + x 4 * dt^4 + x 5 * dt^5 +
        x 6 * dt^6 + x 7 * dt^7 := by
  rw [ofFn_eight]
  simp [polyEvalBase, List.enum_cons, List.enumFrom]
  try ring

theorem cubic_fit_boundary (T v0 d v1 : ℚ) (hT : T ≠ 0) :
    polyEvalBase (List.ofFn (solveLinearSystem (cubicM T) ![0, v0, d, v1])) 0 = 0 ∧
      polyEvalBase (List.ofFn (solveLinearSystem (cubicM T) ![0, v0, d, v1])) T = d ∧
      polyEvalD1 (List.ofFn (solveLinearSystem (cubicM T) ![0, v0, d, v1])) 0 = v0 ∧
      polyEvalD1 (List.ofFn (solveLinearSystem (cubicM T) ![0, v0, d, v1])) T = v1 := by
  set x := solveLinearSystem (cubicM T) ![0, v0, d, v1] with hxdef
  have hx := solveLinearSystem_correct (cubicM T) ![0, v0, d, v1] (cubicM_det_ne_zero hT)
  rw [← hxdef] at hx
  have h0 : 1 * x 0 + (0 * x 1 + (0 * x 2 + (0 * x 3 + 0))) = 0 := congrFun hx 0
  have h1 : 0 * x 0 + (1 * x 1 + (0 * x 2 + (0 * x 3 + 0))) = v0 := congrFun hx 1
  have h2 : 1 * x 0 + (T * x 1 + (T^2 * x 2 + (T^3 * x 3 + 0))) = d := congrFun hx 2
  have h3 : 0 * x 0 + (1 * x 1 + (2*T * x 2 + (3*T^2 * x 3 + 0))) = v1 := congrFun hx 3
  refine ⟨?_, ?_, ?_, ?_⟩
  · rw [polyEvalBase_ofFn_four]
    linear_combination h0
  · rw [polyEvalBase_ofFn_four]
    linear_combination h2
  · rw [polyEvalD1_ofFn_four]
    linear_combination h1
  · rw [polyEvalD1_ofFn_four]
    linear_combination h3

theorem quintic_fit_boundary (T v0 a0 d v1 a1 : ℚ) (hT : T ≠ 0) :
    polyEvalBase (List.ofFn (solveLinearSystem (quinticM T) ![0, v0, a0, d, v1, a1])) 0 = 0 ∧
      polyEvalBase (List.ofFn (solveLinearSystem (quinticM T) ![0, v0, a0, d, v1, a1])) T =
        d := by
  set x := solveLinearSystem (quinticM T) ![0, v0, a0, d, v1, a1] with hxdef
  have hx := solveLinearSystem_correct (quinticM T) ![0, v0, a0, d, v1, a1]
    (quinticM_det_ne_zero hT)
  rw [← hxdef] at hx
  have h0 : 1 * x 0 + (0 * x 1 + (0 * x 2 + (0 * x 3 + (0 * x 4 + (0 * x 5 + 0))))) = 0 :=
    congrFun hx 0
  have h3 : 1 * x 0 + (T * x 1 + (T^2 * x 2 + (T^3 * x 3 + (T^4 * x 4 + (T^5 * x 5 + 0))))) =
      d := congrFun hx 3
  refine ⟨?_, ?_⟩
  · rw [polyEvalBase_ofFn_six]
    linear_combination h0
  · rw [polyEvalBase_ofFn_six]
    linear_combination h3

theorem septic_fit_boundary (T v0 a0 j0 d vf af jf : ℚ) (hT : T ≠ 0) :
    polyEvalBase
        (List.ofFn (solveLinearSystem (septicM T) ![0, v0, a0, j0, d, vf, af, jf])) 0 = 0 ∧
      polyEvalBase
          (List.ofFn (solveLinearSystem (septicM T) ![0, v0, a0, j0, d, vf, af, jf])) T =
        d := by
  set x := solveLinearSystem (septicM T) ![0, v0, a0, j0, d, vf, af, jf] with hxdef
  have hx := solveLinearSystem_correct (septicM T) ![0, v0, a0, j0, d, vf, af, jf]
    (septicM_det_ne_zero hT)
  rw [← hxdef] at hx
  have h0 : 1 * x 0 + (0 * x 1 + (0 * x 2 + (0 * x 3 +
      (0 * x 4 + (0 * x 5 + (0 * x 6 + (0 * x 7 + 0))))))) = 0 := congrFun hx 0
  have h4 : 1 * x 0 + (T * x 1 + (T^2 * x 2 + (T^3 * x 3 +
      (T^4 * x 4 + (T^5 * x 5 + (T^6 * x 6 + (T^7 * x 7 + 0))))))) = d := congrFun hx 4
  refine ⟨?_, ?_⟩
  · rw [polyEvalBase_ofFn_eight]
    linear_combination h0
  · rw [polyEvalBase_ofFn_eight]
    linear_combination h4

/-! ## Per-shape endpoint values (towards C1) -/

theorem clampDt_self_left {s : MotionSegment} (h01 : s.t0 ≤ s.t1) :
    clampDt s s.t0 = 0 :=
  clampDt_eq_left h01 le_rfl

theorem clampDt_self_right {s : MotionSegment} (h01 : s.t0 ≤ s.t1) :
    clampDt s s.t1 = s.t1 - s.t0 :=
  clampDt_eq_right h01 le_rfl

theorem constant_endpoints (s : MotionSegment) (h01 : s.t0 < s.t1)
    (ha : s.a0 = 2 * (s.d - s.v0 * (s.t1 - s.t0)) / (s.t1 - s.t0)^2) :
    constantPosition s s.t0 = 0 ∧ constantPosition s s.t1 = s.d := by
  have hT : s.t1 - s.t0 ≠ 0 := sub_ne_zero.mpr h01.ne'
  constructor
  · simp [constantPosition, clampDt_self_left h01.le]
  · rw [constantPosition, clampDt_self_right h01.le, ha]
    field_simp
    ring

theorem triangular_endpoints (s : MotionSegment) (h01 : s.t0 < s.t1)
    (hv0 : s.v0 = 0) :
    triangularPosition s s.t0 = 0 ∧ triangularPosition s s.t1 = s.d := by
  have hTpos : (0:ℚ) < s.t1 - s.t0 := sub_pos.mpr h01
  have hT : s.t1 - s.t0 ≠ 0 := hTpos.ne'
  have ht1 : (triangularParams s).t1 = (s.t1 - s.t0) / 2 := rfl
  constructor
  · rw [triangularPosition, clampDt_self_left h01.le]
    rw [if_pos (by rw [ht1]; positivity)]
    simp
  · rw [triangularPosition, clampDt_self_right h01.le]
    rw [if_neg (by rw [ht1]; push_neg; linarith)]
    show s.v0 * (triangularParams s).t1 +
        1/2 * (triangularParams s).a * (triangularParams s).t1 * (triangularParams s).t1 +
        (triangularParams s).vPeak * (s.t1 - s.t0 - (triangularParams s).t1) +
        1/2 * -(triangularParams s).a * (s.t1 - s.t0 - (triangularParams s).t1) *
          (s.t1 - s.t0 - (triangularParams s).t1) = s.d
    rw [show (triangularParams s).t1 = (s.t1 - s.t0) / 2 from rfl,
      show (triangularParams s).a = 2 * s.d / (s.t1 - s.t0) / ((s.t1 - s.t0) / 2) from rfl,
      show (triangularParams s).vPeak = 2 * s.d / (s.t1 - s.t0) from rfl, hv0]
    field_simp
    ring

theorem sCurve_endpoints (s : MotionSegment) (h01 : s.t0 < s.t1) :
    sCurvePosition s s.t0 = 0 ∧ sCurvePosition s s.t1 = s.d := by
  have hT : s.t1 - s.t0 ≠ 0 := (sub_pos.mpr h01).ne'
  constructor
  · rw [sCurvePosition, clamp01n_eq_left h01 le_rfl]
    ring
  · rw [sCurvePosition, clamp01n_eq_right h01 le_rfl]
    ring

theorem trapezoidal_endpoints_cruise (s : MotionSegment) (h01 : s.t0 < s.t1)
    (cp vfv : ℚ) (hcp : s.cruisePercentage = some cp) (hvf : s.vf = some vfv)
    (hcp1 : cp < 1) :
    trapezoidalPosition s s.t0 = 0 ∧ trapezoidalPosition s s.t1 = s.d := by
  have hTpos : (0:ℚ) < s.t1 - s.t0 := sub_pos.mpr h01
  have hf0 : (0:ℚ) ≤ 0 ⊔ 1 ⊓ cp := le_max_left _ _
  have hf1 : (0:ℚ) ⊔ 1 ⊓ cp < 1 :=
    max_lt_iff.mpr ⟨one_pos, (min_le_right _ _).trans_lt hcp1⟩
  set f : ℚ := 0 ⊔ 1 ⊓ cp with hfdef
  have hfT : 0 ≤ f * (s.t1 - s.t0) := mul_nonneg hf0 hTpos.le
  have h1f : 0 < (1 - f) * (s.t1 - s.t0) := mul_pos (by linarith) hTpos
  have hD1 : (s.t1 - s.t0 - f * (s.t1 - s.t0)) / 2 ≠ 0 := by
    have : 0 < (s.t1 - s.t0 - f * (s.t1 - s.t0)) / 2 := by nlinarith
    exact this.ne'
  have hD2 : (s.t1 - s.t0 - f * (s.t1 - s.t0)) / 2 / 2 + f * (s.t1 - s.t0) +
      (s.t1 - s.t0 - f * (s.t1 - s.t0)) / 2 / 2 ≠ 0 := by
    have : 0 < (s.t1 - s.t0 - f * (s.t1 - s.t0)) / 2 / 2 + f * (s.t1 - s.t0) +
        (s.t1 - s.t0 - f * (s.t1 - s.t0)) / 2 / 2 := by nlinarith
    exact this.ne'
  constructor
  · rw [trapezoidalPosition, trapezoidalParams, hcp, hvf]
    simp only [Option.getD_some, ← hfdef]
    rw [clampDt_self_left h01.le]
    rw [if_pos (by nlinarith)]
    ring
  · rw [trapezoidalPosition, trapezoidalParams, hcp, hvf]
    simp only [Option.getD_some, ← hfdef]
    rw [clampDt_self_right h01.le]
    set t2p := f * (s.t1 - s.t0) with ht2pdef
    set t1p := (s.t1 - s.t0 - t2p) / 2 with ht1pdef
    have ht1ppos : 0 < t1p := by rw [ht1pdef, ht2pdef]; nlinarith
    have ht2pnn : 0 ≤ t2p := hfT
    have hTt1p : t1p + t1p + t2p = s.t1 - s.t0 := by rw [ht1pdef]; ring
    have hDpos : 0 < t1p / 2 + t2p + t1p / 2 := by linarith
    set vM := (s.d - t1p / 2 * s.v0 - t1p / 2 * vfv) / (t1p / 2 + t2p + t1p / 2) with hvMdef
    have hvM : vM * (t1p / 2 + t2p + t1p / 2) = s.d - t1p / 2 * s.v0 - t1p / 2 * vfv := by
      rw [hvMdef]
      exact div_mul_cancel₀ _ hDpos.ne'
    set a1 := (vM - s.v0) / t1p with ha1def
    set a3 := (vfv - vM) / t1p with ha3def
    have ha1 : a1 * t1p = vM - s.v0 := by
      rw [ha1def]
      exact div_mul_cancel₀ _ ht1ppos.ne'
    have ha3 : a3 * t1p = vfv - vM := by
      rw [ha3def]
      exact div_mul_cancel₀ _ ht1ppos.ne'
    rw [if_neg (by push_neg; linarith), if_neg (by push_neg; linarith)]
    have hdt3 : s.t1 - s.t0 - t1p - t2p = t1p := by linarith
    rw [hdt3]
    linear_combination (t1p / 2) * ha1 + (t1p / 2) * ha3 + hvM

theorem trapezoidalParams_nocruise (s : MotionSegment) (h01 : s.t0 < s.t1)
    (hcp : s.cruisePercentage = none) (hv0 : s.v0 = 0) (hvf : s.vf = some 0)
    (hd : 0 < s.d) :
    trapezoidalParams s =
      ⟨2 * s.d / (s.t1 - s.t0), (s.t1 - s.t0) / 2, 0, (s.t1 - s.t0) / 2,
        4 * s.d / (s.t1 - s.t0) ^ 2, -(4 * s.d / (s.t1 - s.t0) ^ 2)⟩ := by
  have hT : (0:ℚ) < s.t1 - s.t0 := sub_pos.mpr h01
  rw [trapezoidalParams, hcp, hvf, hv0]
  simp only [Option.getD_some, mul_zero, add_zero, zero_add, sub_zero, zero_sub, neg_div, abs_neg]
  have hTne : s.t1 - s.t0 ≠ 0 := hT.ne'
  have hvp : (0:ℚ) < 2 * s.d / (s.t1 - s.t0) := div_pos (by linarith) hT
  have hap : (0:ℚ) < 2 * s.d / (s.t1 - s.t0) / ((s.t1 - s.t0) / 2) :=
    div_pos hvp (by linarith)
  rw [abs_of_pos hap]
  have ht1e : 2 * s.d / (s.t1 - s.t0) / (2 * s.d / (s.t1 - s.t0) / ((s.t1 - s.t0) / 2)) =
      (s.t1 - s.t0) / 2 := by
    rw [div_div_eq_mul_div, mul_comm (2 * s.d / (s.t1 - s.t0)) ((s.t1 - s.t0) / 2),
      mul_div_assoc, div_self hvp.ne', mul_one]
  rw [ht1e]
  have ht2e : s.d - 2 * s.d / (s.t1 - s.t0) * ((s.t1 - s.t0) / 2) / 2 -
      2 * s.d / (s.t1 - s.t0) * ((s.t1 - s.t0) / 2) / 2 = 0 := by
    field_simp
    ring
  rw [ht2e, zero_div, if_neg (lt_irrefl 0)]
  simp only [TrapParams.mk.injEq]
  refine ⟨trivial, trivial, trivial, trivial, ?_, ?_⟩
  · field_simp
    ring
  · rw [neg_inj]
    field_simp
    ring

theorem trapezoidal_endpoints_nocruise (s : MotionSegment) (h01 : s.t0 < s.t1)
    (hcp : s.cruisePercentage = none) (hv0 : s.v0 = 0) (hvf : s.vf = some 0)
    (hd : 0 < s.d) :
    trapezoidalPosition s s.t0 = 0 ∧ trapezoidalPosition s s.t1 = s.d := by
  have hT : (0:ℚ) < s.t1 - s.t0 := sub_pos.mpr h01
  have hTne : s.t1 - s.t0 ≠ 0 := hT.ne'
  have hp := trapezoidalParams_nocruise s h01 hcp hv0 hvf hd
  constructor
  · rw [trapezoidalPosition, hp, clampDt_self_left h01.le]
    simp only []
    rw [if_pos (by linarith)]
    ring
  · rw [trapezoidalPosition, hp, clampDt_self_right h01.le]
    simp only []
    rw [if_neg (by push_neg; linarith), if_neg (by push_neg; linarith)]
    rw [hv0]
    field_simp
    ring

/-! ## C1: endpoint values of `position` -/

/-- C1 (counterexample): the claim asserts `position(t1) = distance` for every
validly constructed segment of any shape, "including nonzero startVelocity
where the shape accepts it".  A triangular segment with `startVelocity = 1`
(accepted: validation only requires `startVelocity ≥ 0`) over `[0, 2]` with
`distance = 4` constructs successfully but has `position(t1) = 5 ≠ 4`: the
triangular profile formulas assume `v0 = 0` (as a source comment notes), yet
the `v0·dt` term is still added to the position. -/
theorem c1_endpoints_counterexample :
    constructSegment c1TriOpts = .ok (buildSegment c1TriOpts) ∧
      position (buildSegment c1TriOpts) (buildSegment c1TriOpts).t1 = .ok 5 ∧
      (buildSegment c1TriOpts).d = 4 := by
  refine ⟨rfl, ?_, rfl⟩
  show Except.ok (triangularPosition (buildSegment c1TriOpts) (buildSegment c1TriOpts).t1) =
    Except.ok 5
  have hval : triangularPosition (buildSegment c1TriOpts) (buildSegment c1TriOpts).t1 = 5 := by
    norm_num [triangularPosition, triangularParams, clampDt, buildSegment, c1TriOpts]
  rw [hval]

/-- C1 (amended): on every validly constructed segment, `position(t0) = 0` and
`position(t1) = distance`, under the side conditions the shape formulas
actually require: the triangular shape needs `startVelocity = 0`; the
trapezoidal shape with a supplied `cruisePercentage` needs it `< 1` (at
exactly 1 the acceleration-phase length is 0 and the source divides by zero);
the trapezoidal shape without `cruisePercentage` needs `startVelocity = 0`,
end velocity 0 and positive `distance`.  The constant, s-curve, polynomial and
jerk-limited shapes need no extra conditions beyond validation. -/
theorem c1_endpoints (o : MotionSegmentOptions) (s : MotionSegment)
    (h : constructSegment o = .ok s)
    (htri : o.segmentType = .triangular → o.startVelocity = 0)
    (htrapc : o.segmentType = .trapezoidal →
      ∀ cp, o.cruisePercentage = some cp → cp < 1)
    (htrapn : o.segmentType = .trapezoidal → o.cruisePercentage = none →
      o.startVelocity = 0 ∧ o.endVelocity.getD o.startVelocity = 0 ∧ 0 < o.distance) :
    position s s.t0 = .ok 0 ∧ position s s.t1 = .ok s.d := by
  obtain ⟨hval, hs⟩ := constructSegment_ok h
  obtain ⟨h01, -, -, -, -, -⟩ := validate_facts hval
  subst hs
  have h01' : (buildSegment o).t0 < (buildSegment o).t1 := h01
  have hTne : o.endTime - o.startTime ≠ 0 := sub_ne_zero.mpr h01.ne'
  cases hty : o.segmentType with
  | constant =>
      have hsty : (buildSegment o).type = SegmentType.constant := hty
      have ha : (buildSegment o).a0 =
          2 * ((buildSegment o).d - (buildSegment o).v0 *
            ((buildSegment o).t1 - (buildSegment o).t0)) /
            ((buildSegment o).t1 - (buildSegment o).t0)^2 := by
        show (if o.segmentType = SegmentType.constant then
            2 * (o.distance - o.startVelocity * (o.endTime - o.startTime)) /
              (o.endTime - o.startTime)^2
          else o.startAccel.getD 0) =
          2 * (o.distance - o.startVelocity * (o.endTime - o.startTime)) /
            (o.endTime - o.startTime)^2
        rw [if_pos hty]
      obtain ⟨he0, he1⟩ := constant_endpoints (buildSegment o) h01' ha
      constructor
      · simp only [position, hsty]
        rw [he0]
      · simp only [position, hsty]
        rw [he1]
  | triangular =>
      have hsty : (buildSegment o).type = SegmentType.triangular := hty
      have hv0 : (buildSegment o).v0 = 0 := htri hty
      obtain ⟨he0, he1⟩ := triangular_endpoints (buildSegment o) h01' hv0
      constructor
      · simp only [position, hsty]
        rw [he0]
      · simp only [position, hsty]
        rw [he1]
  | trapezoidal =>
      have hsty : (buildSegment o).type = SegmentType.trapezoidal := hty
      have hvf : (buildSegment o).vf = some (o.endVelocity.getD o.startVelocity) := by
        show (if o.segmentType = SegmentType.constant then none
          else some (o.endVelocity.getD o.startVelocity)) =
          some (o.endVelocity.getD o.startVelocity)
        rw [if_neg (by rw [hty]; intro hh; exact SegmentType.noConfusion hh)]
      rcases hcp : o.cruisePercentage with _ | cp
      · obtain ⟨hv00, hvf0, hd0⟩ := htrapn hty hcp
        have hcp' : (buildSegment o).cruisePercentage = none := hcp
        have hv0' : (buildSegment o).v0 = 0 := hv00
        have hvf' : (buildSegment o).vf = some 0 := by rw [hvf, hvf0]
        have hd' : 0 < (buildSegment o).d := hd0
        obtain ⟨he0, he1⟩ :=
          trapezoidal_endpoints_nocruise (buildSegment o) h01' hcp' hv0' hvf' hd'
        constructor
        · simp only [position, hsty]
          rw [he0]
        · simp only [position, hsty]
          rw [he1]
      · have hcp' : (buildSegment o).cruisePercentage = some cp := hcp
        obtain ⟨he0, he1⟩ := trapezoidal_endpoints_cruise (buildSegment o) h01'
          cp (o.endVelocity.getD o.startVelocity) hcp' hvf (htrapc hty cp hcp)
        constructor
        · simp only [position, hsty]
          rw [he0]
        · simp only [position, hsty]
          rw [he1]
  | sCurve =>
      have hsty : (buildSegment o).type = SegmentType.sCurve := hty
      obtain ⟨he0, he1⟩ := sCurve_endpoints (buildSegment o) h01'
      constructor
      · simp only [position, hsty]
        rw [he0]
      · simp only [position, hsty]
        rw [he1]
  | polynomial =>
      have hsty : (buildSegment o).type = SegmentType.polynomial := hty
      have hcs : (buildSegment o).coeffs = some (polynomialFitCoeffs o) := by
        show (if o.segmentType = SegmentType.polynomial then
            some (polynomialFitCoeffs o) else none) = some (polynomialFitCoeffs o)
        rw [if_pos hty]
      have hc0 : clampDt (buildSegment o) (buildSegment o).t0 = 0 :=
        clampDt_self_left h01'.le
      have hc1 : clampDt (buildSegment o) (buildSegment o).t1 =
          (buildSegment o).t1 - (buildSegment o).t0 := clampDt_self_right h01'.le
      have hTproj : (buildSegment o).t1 - (buildSegment o).t0 =
          o.endTime - o.startTime := rfl
      rcases ha0 : o.startAccel with _ | a0 <;> rcases ha1 : o.endAccel with _ | a1
      · have hpoly : polynomialFitCoeffs o =
            List.ofFn (solveLinearSystem (cubicM (o.endTime - o.startTime))
              ![0, o.startVelocity, o.distance, o.endVelocity.getD o.startVelocity]) := by
          simp only [polynomialFitCoeffs, ha0, ha1]
        obtain ⟨hb0, hbT, -, -⟩ := cubic_fit_boundary (o.endTime - o.startTime)
          o.startVelocity o.distance (o.endVelocity.getD o.startVelocity) hTne
        constructor
        · simp only [position, hsty, hcs, hpoly]
          rw [hc0, hb0]
        · show position (buildSegment o) (buildSegment o).t1 = .ok o.distance
          simp only [position, hsty, hcs, hpoly]
          rw [hc1, hTproj, hbT]
      · have hpoly : polynomialFitCoeffs o =
            List.ofFn (solveLinearSystem (cubicM (o.endTime - o.startTime))
              ![0, o.startVelocity, o.distance, o.endVelocity.getD o.startVelocity]) := by
          simp only [polynomialFitCoeffs, ha0, ha1]
        obtain ⟨hb0, hbT, -, -⟩ := cubic_fit_boundary (o.endTime - o.startTime)
          o.startVelocity o.distance (o.endVelocity.getD o.startVelocity) hTne
        constructor
        · simp only [position, hsty, hcs, hpoly]
          rw [hc0, hb0]
        · show position (buildSegment o) (buildSegment o).t1 = .ok o.distance
          simp only [position, hsty, hcs, hpoly]
          rw [hc1, hTproj, hbT]
      · have hpoly : polynomialFitCoeffs o =
            List.ofFn (solveLinearSystem (cubicM (o.endTime - o.startTime))
              ![0, o.startVelocity, o.distance, o.endVelocity.getD o.startVelocity]) := by
          simp only [polynomialFitCoeffs, ha0, ha1]
        obtain ⟨hb0, hbT, -, -⟩ := cubic_fit_boundary (o.endTime - o.startTime)
          o.startVelocity o.distance (o.endVelocity.getD o.startVelocity) hTne
        constructor
        · simp only [position, hsty, hcs, hpoly]
          rw [hc0, hb0]
        · show position (buildSegment o) (buildSegment o).t1 = .ok o.distance
          simp only [position, hsty, hcs, hpoly]
          rw [hc1, hTproj, hbT]
      · have hpoly : polynomialFitCoeffs o =
            List.ofFn (solveLinearSystem (quinticM (o.endTime - o.startTime))
              ![0, o.startVelocity, a0, o.distance,
                o.endVelocity.getD o.startVelocity, a1]) := by
          simp only [polynomialFitCoeffs, ha0, ha1]
        obtain ⟨hb0, hbT⟩ := quintic_fit_boundary (o.endTime - o.startTime)
          o.startVelocity a0 o.distance (o.endVelocity.getD o.startVelocity) a1 hTne
        constructor
        · simp only [position, hsty, hcs, hpoly]
          rw [hc0, hb0]
        · show position (buildSegment o) (buildSegment o).t1 = .ok o.distance
          simp only [position, hsty, hcs, hpoly]
          rw [hc1, hTproj, hbT]
  | jerkLimited =>
      have hsty : (buildSegment o).type = SegmentType.jerkLimited := hty
      have hjc : (buildSegment o).jerkCoeffs = some
          (calcJerkLimitedCoeffs o.startTime o.endTime o.distance o.startVelocity
            (o.endVelocity.getD o.startVelocity) (o.startAccel.getD 0)
            (o.endAccel.getD 0) (o.startJerk.getD 0) (o.endJerk.getD 0)) := by
        simp [buildSegment, hty]
      have hj0 : jlClampDt (buildSegment o) (buildSegment o).t0 = 0 :=
        jlClampDt_eq_left h01'.le le_rfl
      have hj1 : jlClampDt (buildSegment o) (buildSegment o).t1 =
          (buildSegment o).t1 - (buildSegment o).t0 := jlClampDt_eq_right h01'.le le_rfl
      have hTproj : (buildSegment o).t1 - (buildSegment o).t0 =
          o.endTime - o.startTime := rfl
      have hjlEval0 : ∀ cs t, jerkLimitedPolyEval cs (buildSegment o) t 0 =
          polyEvalBase cs (jlClampDt (buildSegment o) t) := fun cs t => rfl
      have hcalc : calcJerkLimitedCoeffs o.startTime o.endTime o.distance o.startVelocity
          (o.endVelocity.getD o.startVelocity) (o.startAccel.getD 0) (o.endAccel.getD 0)
          (o.startJerk.getD 0) (o.endJerk.getD 0) =
          List.ofFn (solveLinearSystem (septicM (o.endTime - o.startTime))
            ![0, o.startVelocity, o.startAccel.getD 0, o.startJerk.getD 0, o.distance,
              o.endVelocity.getD o.startVelocity, o.endAccel.getD 0,
              o.endJerk.getD 0]) := rfl
      obtain ⟨hb0, hbT⟩ := septic_fit_boundary (o.endTime - o.startTime) o.startVelocity
        (o.startAccel.getD 0) (o.startJerk.getD 0) o.distance
        (o.endVelocity.getD o.startVelocity) (o.endAccel.getD 0) (o.endJerk.getD 0) hTne
      constructor
      · simp only [position, hsty, hjc]
        rw [hjlEval0, hj0, hcalc, hb0]
      · show position (buildSegment o) (buildSegment o).t1 = .ok o.distance
        simp only [position, hsty, hjc]
        rw [hjlEval0, hj1, hTproj, hcalc, hbT]

/-- Witness for the amended C1 theorem on a concrete constant-shape segment:
the side conditions are vacuous and the endpoint values are `0` and `100`. -/
theorem c1_endpoints_witness :
    constructSegment c1ConstOpts = .ok (buildSegment c1ConstOpts) ∧
      position (buildSegment c1ConstOpts) (buildSegment c1ConstOpts).t0 = .ok 0 ∧
      position (buildSegment c1ConstOpts) (buildSegment c1ConstOpts).t1 =
        .ok (buildSegment c1ConstOpts).d := by
  have hc : constructSegment c1ConstOpts = .ok (buildSegment c1ConstOpts) := rfl
  have h := c1_endpoints c1ConstOpts (buildSegment c1ConstOpts) hc
    (fun hh => by cases hh) (fun hh => by cases hh) (fun hh => by cases hh)
  exact ⟨hc, h.1, h.2⟩

/-! ## C9: the polynomial shape with exactly one boundary acceleration -/

/-- C9: for the polynomial shape with exactly one of `startAccel`/`endAccel`
supplied, construction succeeds (given validation passes), the fit is the
cubic system matching only position and velocity at the two boundaries, those
four boundary values are attained, and the single supplied acceleration has no
effect: every output of `position`, `velocity`, `acceleration` and `jerk`
equals that of the segment built with both accelerations absent. -/
theorem c9_single_accel_ignored (o : MotionSegmentOptions)
    (hty : o.segmentType = .polynomial)
    (hone : ((∃ a, o.startAccel = some a) ∧ o.endAccel = none) ∨
      (o.startAccel = none ∧ ∃ a, o.endAccel = some a))
    (hval : validateOptions (toJS o) = .ok ()) :
    constructSegment o = .ok (buildSegment o) ∧
      (buildSegment o).coeffs = some
        (List.ofFn (solveLinearSystem (cubicM (o.endTime - o.startTime))
          ![0, o.startVelocity, o.distance, o.endVelocity.getD o.startVelocity])) ∧
      (position (buildSegment o) o.startTime = .ok 0 ∧
        position (buildSegment o) o.endTime = .ok o.distance ∧
        velocity (buildSegment o) o.startTime = .ok o.startVelocity ∧
        velocity (buildSegment o) o.endTime = .ok (o.endVelocity.getD o.startVelocity)) ∧
      ∀ t, position (buildSegment o) t = position (buildSegment (eraseAccels o)) t ∧
        velocity (buildSegment o) t = velocity (buildSegment (eraseAccels o)) t ∧
        acceleration (buildSegment o) t = acceleration (buildSegment (eraseAccels o)) t ∧
        jerk (buildSegment o) t = jerk (buildSegment (eraseAccels o)) t := by
  obtain ⟨h01, -, -, -, -, -⟩ := validate_facts hval
  have h01' : (buildSegment o).t0 < (buildSegment o).t1 := h01
  have hTne : o.endTime - o.startTime ≠ 0 := sub_ne_zero.mpr h01.ne'
  have hcons : constructSegment o = .ok (buildSegment o) := by
    unfold constructSegment
    rw [hval]
    rfl
  have hsty : (buildSegment o).type = SegmentType.polynomial := hty
  have hsty' : (buildSegment (eraseAccels o)).type = SegmentType.polynomial := hty
  have hpoly : polynomialFitCoeffs o =
      List.ofFn (solveLinearSystem (cubicM (o.endTime - o.startTime))
        ![0, o.startVelocity, o.distance, o.endVelocity.getD o.startVelocity]) := by
    rcases hone with ⟨⟨a, ha⟩, hb⟩ | ⟨ha, ⟨a, hb⟩⟩ <;>
      simp only [polynomialFitCoeffs, ha, hb]
  have hcs : (buildSegment o).coeffs = some (polynomialFitCoeffs o) := by
    show (if o.segmentType = SegmentType.polynomial then
        some (polynomialFitCoeffs o) else none) = some (polynomialFitCoeffs o)
    rw [if_pos hty]
  have hcs2 : (buildSegment o).coeffs = some
      (List.ofFn (solveLinearSystem (cubicM (o.endTime - o.startTime))
        ![0, o.startVelocity, o.distance, o.endVelocity.getD o.startVelocity])) := by
    rw [hcs, hpoly]
  have hpoly' : polynomialFitCoeffs (eraseAccels o) =
      List.ofFn (solveLinearSystem (cubicM (o.endTime - o.startTime))
        ![0, o.startVelocity, o.distance, o.endVelocity.getD o.startVelocity]) := rfl
  have hcs' : (buildSegment (eraseAccels o)).coeffs =
      some (polynomialFitCoeffs (eraseAccels o)) := by
    show (if (eraseAccels o).segmentType = SegmentType.polynomial then
        some (polynomialFitCoeffs (eraseAccels o)) else none) =
      some (polynomialFitCoeffs (eraseAccels o))
    rw [if_pos (show (eraseAccels o).segmentType = SegmentType.polynomial from hty)]
  have hcs2' : (buildSegment (eraseAccels o)).coeffs = some
      (List.ofFn (solveLinearSystem (cubicM (o.endTime - o.startTime))
        ![0, o.startVelocity, o.distance, o.endVelocity.getD o.startVelocity])) := by
    rw [hcs', hpoly']
  have hc0 : clampDt (buildSegment o) o.startTime = 0 := clampDt_self_left h01'.le
  have hc1 : clampDt (buildSegment o) o.endTime = o.endTime - o.startTime :=
    clampDt_self_right h01'.le
  obtain ⟨hb0, hbT, hd0, hdT⟩ := cubic_fit_boundary (o.endTime - o.startTime)
    o.startVelocity o.distance (o.endVelocity.getD o.startVelocity) hTne
  refine ⟨hcons, hcs2, ⟨?_, ?_, ?_, ?_⟩, ?_⟩
  · simp only [position, hsty, hcs2]
    rw [hc0, hb0]
  · simp only [position, hsty, hcs2]
    rw [hc1, hbT]
  · simp only [velocity, hsty, hcs2]
    rw [hc0, hd0]
  · simp only [velocity, hsty, hcs2]
    rw [hc1, hdT]
  · intro t
    refine ⟨?_, ?_, ?_, ?_⟩ <;>
      · simp only [position, velocity, acceleration, jerk, hsty, hsty', hcs2, hcs2']
        rfl

/-- Witness for C9 on concrete options with `startAccel = 3` supplied and
`endAccel` absent: construction succeeds and the outputs coincide with the
accel-free segment's. -/
theorem c9_single_accel_witness :
    constructSegment c9Opts = .ok (buildSegment c9Opts) ∧
      position (buildSegment c9Opts) 0 = position (buildSegment (eraseAccels c9Opts)) 0 ∧
      acceleration (buildSegment c9Opts) 0 =
        acceleration (buildSegment (eraseAccels c9Opts)) 0 := by
  have h := c9_single_accel_ignored c9Opts rfl (Or.inl ⟨⟨3, rfl⟩, rfl⟩) rfl
  exact ⟨h.1, (h.2.2.2 0).1, (h.2.2.2 0).2.2.1⟩

/-! ## C8: the extrema scans -/

theorem maxFold_spec (g : ℕ → Except String ℚ) (f : ℕ → ℚ) (l : List ℕ) :
    ∀ init : ℚ, (∀ i ∈ l, g i = .ok (f i)) →
    ∃ m, l.foldl (fun acc i => acc.bind fun maxA => (g i).map fun a =>
        if |a| > maxA then |a| else maxA) (Except.ok init) = .ok m ∧
      init ≤ m ∧ (∀ i ∈ l, |f i| ≤ m) ∧ (m = init ∨ ∃ i ∈ l, m = |f i|) := by
  induction l with
  | nil =>
      intro init _
      exact ⟨init, rfl, le_rfl, by simp, Or.inl rfl⟩
  | cons i tl ih =>
      intro init hgl
      have hgi : g i = .ok (f i) := hgl i (List.mem_cons_self i tl)
      have h1 : ((Except.ok init).bind fun maxA => (g i).map fun a =>
          if |a| > maxA then |a| else maxA) =
          Except.ok (if |f i| > init then |f i| else init) := by
        rw [hgi]
        rfl
      obtain ⟨m, hm, hini, hall, hatt⟩ :=
        ih (if |f i| > init then |f i| else init)
          (fun j hj => hgl j (List.mem_cons_of_mem _ hj))
      refine ⟨m, ?_, ?_, ?_, ?_⟩
      · rw [List.foldl_cons, h1]
        exact hm
      · refine le_trans ?_ hini
        split_ifs with h
        · exact h.le
        · exact le_rfl
      · intro j hj
        rcases List.mem_cons.mp hj with rfl | hj'
        · refine le_trans ?_ hini
          split_ifs with h
          · exact le_rfl
          · exact not_lt.mp h
        · exact hall j hj'
      · rcases hatt with heq | ⟨j, hj, hm'⟩
        · by_cases h : |f i| > init
          · rw [if_pos h] at heq
            exact Or.inr ⟨i, List.mem_cons_self i tl, heq⟩
          · rw [if_neg h] at heq
            exact Or.inl heq
        · exact Or.inr ⟨j, List.mem_cons_of_mem _ hj, hm'⟩

/-- C8 (amended): `getMaxAcceleration` and `getMaxJerk` sample the respective
function at the 101 (not 100) equally spaced points `t0 + (i/100)·(t1-t0)`,
`i = 0..100` — both endpoints included — and return the maximum absolute value
observed, which is always ≥ 0: the result bounds every sample's absolute value
and, unless it is the initial 0, is itself one of the samples' absolute
values. -/
theorem c8_sampling (s : MotionSegment) (fa fj : ℕ → ℚ)
    (hfa : ∀ i : ℕ, i < 101 →
      acceleration s (s.t0 + ((i : ℚ) / 100) * (s.t1 - s.t0)) = .ok (fa i))
    (hfj : ∀ i : ℕ, i < 101 →
      jerk s (s.t0 + ((i : ℚ) / 100) * (s.t1 - s.t0)) = .ok (fj i)) :
    (∃ m, getMaxAcceleration s = .ok m ∧ 0 ≤ m ∧
      (∀ i : ℕ, i < 101 → |fa i| ≤ m) ∧ (m = 0 ∨ ∃ i : ℕ, i < 101 ∧ m = |fa i|)) ∧
    ∃ m, getMaxJerk s = .ok m ∧ 0 ≤ m ∧
      (∀ i : ℕ, i < 101 → |fj i| ≤ m) ∧ (m = 0 ∨ ∃ i : ℕ, i < 101 ∧ m = |fj i|) := by
  constructor
  · obtain ⟨m, hm, h0, hall, hatt⟩ := maxFold_spec
      (fun i => acceleration s (s.t0 + ((i : ℚ) / 100) * (s.t1 - s.t0))) fa
      (List.range 101) 0 (fun i hi => hfa i (List.mem_range.mp hi))
    refine ⟨m, hm, h0, fun i hi => hall i (List.mem_range.mpr hi), ?_⟩
    exact hatt.imp id fun ⟨i, hi, h⟩ => ⟨i, List.mem_range.mp hi, h⟩
  · obtain ⟨m, hm, h0, hall, hatt⟩ := maxFold_spec
      (fun i => jerk s (s.t0 + ((i : ℚ) / 100) * (s.t1 - s.t0))) fj
      (List.range 101) 0 (fun i hi => hfj i (List.mem_range.mp hi))
    refine ⟨m, hm, h0, fun i hi => hall i (List.mem_range.mpr hi), ?_⟩
    exact hatt.imp id fun ⟨i, hi, h⟩ => ⟨i, List.mem_range.mp hi, h⟩

/-- Witness for C8 on a concrete constant-shape segment: both scans return a
value and it is nonnegative. -/
theorem c8_sampling_witness :
    (∃ m, getMaxAcceleration (buildSegment c1ConstOpts) = .ok m ∧ 0 ≤ m) ∧
      ∃ m, getMaxJerk (buildSegment c1ConstOpts) = .ok m ∧ 0 ≤ m := by
  have h := c8_sampling (buildSegment c1ConstOpts)
    (fun _ => (buildSegment c1ConstOpts).a0) (fun _ => 0)
    (fun _ _ => rfl) (fun _ _ => rfl)
  obtain ⟨⟨ma, hma, h0a, -, -⟩, ⟨mj, hmj, h0j, -, -⟩⟩ := h
  exact ⟨⟨ma, hma, h0a⟩, ⟨mj, hmj, h0j⟩⟩

theorem clampDt_interp (s : MotionSegment) (h01 : s.t0 ≤ s.t1) (x : ℚ)
    (h0 : 0 ≤ x) (h1 : x ≤ 1) :
    clampDt s (s.t0 + x * (s.t1 - s.t0)) = x * (s.t1 - s.t0) := by
  have hT : (0:ℚ) ≤ s.t1 - s.t0 := sub_nonneg.mpr h01
  rw [clampDt, if_neg (by push_neg; nlinarith [mul_nonneg h0 hT]),
    if_neg (by push_neg; nlinarith [mul_nonneg (sub_nonneg.mpr h1) hT])]
  ring

theorem c8_accel_eval (dt : ℚ) :
    polyEvalD2 [0, 0, 918, 108, -81, 0] dt = 1836 + 648 * dt - 972 * dt^2 := by
  simp [polyEvalD2, List.enum_cons, List.enumFrom]
  try ring

theorem c8_fit_eq : polynomialFitCoeffs c8Opts = [0, 0, 918, 108, -81, 0] := by
  have hdet : (quinticM ((1:ℚ) - 0)).det ≠ 0 := quinticM_det_ne_zero (by norm_num)
  have hx := solveLinearSystem_correct (quinticM ((1:ℚ) - 0))
    ![0, 0, 1836, 945, 1836, 1512] hdet
  have hc : (quinticM ((1:ℚ) - 0)).mulVec ![0, 0, 918, 108, -81, 0] =
      ![0, 0, 1836, 945, 1836, 1512] := by
    funext r
    fin_cases r
    · show (1:ℚ) * 0 + (0 * 0 + (0 * 918 + (0 * 108 + (0 * (-81) + (0 * 0 + 0))))) = 0
      norm_num
    · show (0:ℚ) * 0 + (1 * 0 + (0 * 918 + (0 * 108 + (0 * (-81) + (0 * 0 + 0))))) = 0
      norm_num
    · show (0:ℚ) * 0 + (0 * 0 + (2 * 918 + (0 * 108 + (0 * (-81) + (0 * 0 + 0))))) =
        1836
      norm_num
    · show (1:ℚ) * 0 + (((1:ℚ) - 0) * 0 + (((1:ℚ) - 0)^2 * 918 +
        (((1:ℚ) - 0)^3 * 108 + (((1:ℚ) - 0)^4 * (-81) + (((1:ℚ) - 0)^5 * 0 + 0))))) =
        945
      norm_num
    · show (0:ℚ) * 0 + (1 * 0 + (2 * ((1:ℚ) - 0) * 918 + (3 * ((1:ℚ) - 0)^2 * 108 +
        (4 * ((1:ℚ) - 0)^3 * (-81) + (5 * ((1:ℚ) - 0)^4 * 0 + 0))))) = 1836
      norm_num
    · show (0:ℚ) * 0 + (0 * 0 + (2 * 918 + (6 * ((1:ℚ) - 0) * 108 +
        (12 * ((1:ℚ) - 0)^2 * (-81) + (20 * ((1:ℚ) - 0)^3 * 0 + 0))))) = 1512
      norm_num
  have hxc : solveLinearSystem (quinticM ((1:ℚ) - 0)) ![0, 0, 1836, 945, 1836, 1512] =
      ![0, 0, 918, 108, -81, 0] := by
    by_contra hne
    refine hdet (Matrix.exists_mulVec_eq_zero_iff.mp
      ⟨solveLinearSystem (quinticM ((1:ℚ) - 0)) ![0, 0, 1836, 945, 1836, 1512] -
        ![0, 0, 918, 108, -81, 0], sub_ne_zero.mpr hne, ?_⟩)
    rw [Matrix.mulVec_sub, hx, hc, sub_self]
  show List.ofFn (solveLinearSystem (quinticM ((1:ℚ) - 0))
    ![0, 0, 1836, 945, 1836, 1512]) = [0, 0, 918, 108, -81, 0]
  rw [hxc]
  rfl

theorem c8_construct : constructSegment c8Opts = .ok c8Seg := by
  have hval : validateOptions (toJS c8Opts) = .ok () := rfl
  have hbs : buildSegment c8Opts = c8Seg := by
    show (⟨0, 1, 945, 0, some 1836, 1836, 1512, 0, 0, .polynomial,
      some (polynomialFitCoeffs c8Opts), none, none⟩ : MotionSegment) = c8Seg
    rw [c8_fit_eq]
    rfl
  unfold constructSegment
  rw [hval]
  show Except.ok (buildSegment c8Opts) = Except.ok c8Seg
  rw [hbs]

/-- C8 (counterexample to "sample count fixed at 100"): the code samples 101
points (`i/100` for `i = 0..100`).  A spec-faithful sampler with 100 equally
spaced points inclusive of both endpoints (spacing `(t1-t0)/99`) returns a
different value on the validly constructed quintic segment `c8Seg`, whose
acceleration `972·(2-(t-1/3)²)` attains its strict maximum 1944 exactly at
`t = 33/99`, a grid node of the 100-point grid that the 101-point grid
misses: the code's result is < 1944, the spec's is ≥ 1944. -/
theorem c8_sample_count_counterexample :
    constructSegment c8Opts = .ok c8Seg ∧
      ∃ A B, getMaxAcceleration c8Seg = .ok A ∧ specMaxAcceleration c8Seg = .ok B ∧
        A ≠ B := by
  refine ⟨c8_construct, ?_⟩
  have hacc : ∀ t : ℚ, acceleration c8Seg t =
      .ok (polyEvalD2 [0, 0, 918, 108, -81, 0] (clampDt c8Seg t)) := fun t => rfl
  have h01 : c8Seg.t0 ≤ c8Seg.t1 := by norm_num [c8Seg]
  have hT1 : c8Seg.t1 - c8Seg.t0 = 1 := by norm_num [c8Seg]
  have hcode : ∀ i : ℕ, i ∈ List.range 101 →
      acceleration c8Seg (c8Seg.t0 + ((i : ℚ) / 100) * (c8Seg.t1 - c8Seg.t0)) =
        .ok (1836 + 648 * (((i : ℚ) / 100) * (c8Seg.t1 - c8Seg.t0)) -
          972 * (((i : ℚ) / 100) * (c8Seg.t1 - c8Seg.t0))^2) := by
    intro i hi
    have hi' : i ≤ 100 := Nat.lt_succ_iff.mp (List.mem_range.mp hi)
    have hx0 : (0:ℚ) ≤ (i : ℚ) / 100 := by positivity
    have hx1 : ((i : ℚ) / 100) ≤ 1 := by
      rw [div_le_one (by norm_num)]
      exact_mod_cast hi'
    rw [hacc, clampDt_interp c8Seg h01 _ hx0 hx1, c8_accel_eval]
  have hspec : ∀ i : ℕ, i ∈ List.range 100 →
      acceleration c8Seg (c8Seg.t0 + ((i : ℚ) / 99) * (c8Seg.t1 - c8Seg.t0)) =
        .ok (1836 + 648 * (((i : ℚ) / 99) * (c8Seg.t1 - c8Seg.t0)) -
          972 * (((i : ℚ) / 99) * (c8Seg.t1 - c8Seg.t0))^2) := by
    intro i hi
    have hi' : i ≤ 99 := Nat.lt_succ_iff.mp (List.mem_range.mp hi)
    have hx0 : (0:ℚ) ≤ (i : ℚ) / 99 := by positivity
    have hx1 : ((i : ℚ) / 99) ≤ 1 := by
      rw [div_le_one (by norm_num)]
      exact_mod_cast hi'
    rw [hacc, clampDt_interp c8Seg h01 _ hx0 hx1, c8_accel_eval]
  obtain ⟨A, hA, hA0, hAall, hAatt⟩ := maxFold_spec
    (fun i => acceleration c8Seg (c8Seg.t0 + ((i : ℚ) / 100) * (c8Seg.t1 - c8Seg.t0)))
    (fun i => 1836 + 648 * (((i : ℚ) / 100) * (c8Seg.t1 - c8Seg.t0)) -
      972 * (((i : ℚ) / 100) * (c8Seg.t1 - c8Seg.t0))^2)
    (List.range 101) 0 hcode
  obtain ⟨B, hB, hB0, hBall, hBatt⟩ := maxFold_spec
    (fun i => acceleration c8Seg (c8Seg.t0 + ((i : ℚ) / 99) * (c8Seg.t1 - c8Seg.t0)))
    (fun i => 1836 + 648 * (((i : ℚ) / 99) * (c8Seg.t1 - c8Seg.t0)) -
      972 * (((i : ℚ) / 99) * (c8Seg.t1 - c8Seg.t0))^2)
    (List.range 100) 0 hspec
  refine ⟨A, B, hA, hB, ?_⟩
  have hB33 := hBall 33 (List.mem_range.mpr (by norm_num))
  rw [hT1] at hB33
  have h1944 : |1836 + 648 * (((33:ℕ) : ℚ) / 99 * 1) -
      972 * (((33:ℕ) : ℚ) / 99 * 1)^2| = 1944 := by
    rw [abs_of_nonneg (by norm_num)]
    norm_num
  rw [h1944] at hB33
  have hAlt : A < 1944 := by
    rcases hAatt with h0' | ⟨i, hi, hAi⟩
    · rw [h0']
      norm_num
    · rw [hT1] at hAi
      have hi' : i ≤ 100 := Nat.lt_succ_iff.mp (List.mem_range.mp hi)
      have hx0 : (0:ℚ) ≤ (i : ℚ) / 100 := by positivity
      have hx1 : ((i : ℚ) / 100) ≤ 1 := by
        rw [div_le_one (by norm_num)]
        exact_mod_cast hi'
      have hxne : ((i : ℚ) / 100) ≠ 1/3 := by
        intro hq
        have h3 : (3:ℚ) * i = 100 := by
          field_simp at hq
          linarith
        have h3' : 3 * i = 100 := by exact_mod_cast h3
        omega
      have hnn : (0:ℚ) ≤ 1836 + 648 * ((i : ℚ) / 100 * 1) -
          972 * ((i : ℚ) / 100 * 1)^2 := by
        nlinarith [mul_nonneg hx0 (sub_nonneg.mpr hx1)]
      have hsq : (0:ℚ) < ((i : ℚ) / 100 - 1/3)^2 :=
        lt_of_le_of_ne (sq_nonneg _)
          (Ne.symm (pow_ne_zero 2 (sub_ne_zero.mpr hxne)))
      rw [hAi, abs_of_nonneg hnn]
      nlinarith [hsq]
  intro hEq
  rw [← hEq] at hB33
  exact absurd hB33 (not_le.mpr hAlt)

/-! ## C10: the solver leaves its arguments unchanged -/

theorem take_set_of_le {α : Type} (v : α) :
    ∀ (l : List α) (r m : ℕ), m ≤ r → (l.set r v).take m = l.take m := by
  intro l
  induction l with
  | nil => intro r m _; rfl
  | cons a t ih =>
      intro r m h
      cases r with
      | zero =>
          cases m with
          | zero => rfl
          | succ m => exact absurd h (by omega)
      | succ r =>
          cases m with
          | zero => rfl
          | succ m =>
              show a :: (t.set r v).take m = a :: t.take m
              rw [ih r m (by omega)]

theorem getD_set_self {α : Type} (v d : α) :
    ∀ (l : List α) (i : ℕ), i < l.length → (l.set i v).getD i d = v := by
  intro l
  induction l with
  | nil => intro i h; simp at h
  | cons a t ih =>
      intro i h
      cases i with
      | zero => rfl
      | succ i =>
          show (t.set i v).getD i d = v
          exact ih i (Nat.lt_of_succ_lt_succ h)

theorem getD_set_ne {α : Type} (v d : α) :
    ∀ (l : List α) (i j : ℕ), i ≠ j → (l.set i v).getD j d = l.getD j d := by
  intro l
  induction l with
  | nil => intro i j _; rfl
  | cons a t ih =>
      intro i j h
      cases i with
      | zero =>
          cases j with
          | zero => exact absurd rfl h
          | succ j => rfl
      | succ i =>
          cases j with
          | zero => rfl
          | succ j =>
              show (t.set i v).getD j d = t.getD j d
              exact ih i j (fun hh => h (by rw [hh]))

theorem foldl_choice_lt (f : ℕ → ℕ → ℕ) (hf : ∀ mr k, f mr k = mr ∨ f mr k = k) :
    ∀ (l : List ℕ) (init n : ℕ), init < n → (∀ k ∈ l, k < n) → l.foldl f init < n := by
  intro l
  induction l with
  | nil => intro init n h _; simpa using h
  | cons a t ih =>
      intro init n h hmem
      rw [List.foldl_cons]
      refine ih (f init a) n ?_ (fun k hk => hmem k (List.mem_cons_of_mem _ hk))
      rcases hf init a with h1 | h1
      · rw [h1]; exact h
      · rw [h1]; exact hmem a (List.mem_cons_self a t)

theorem pivotRowHeap_lt (st : Store) (ar : List ℕ) (n i : ℕ) (hi : i < n) :
    pivotRowHeap st ar n i < n := by
  show ((List.range n).drop (i + 1)).foldl
    (fun mr k =>
      if |(hRead st (ar.getD k 0)).getD i 0| > |(hRead st (ar.getD mr 0)).getD i 0| then k
      else mr) i < n
  refine foldl_choice_lt _ ?_ _ i n hi
    (fun k hk => List.mem_range.mp (List.mem_of_mem_drop hk))
  intro mr k
  by_cases h : |(hRead st (ar.getD k 0)).getD i 0| > |(hRead st (ar.getD mr 0)).getD i 0|
  · exact Or.inr (if_pos h)
  · exact Or.inl (if_neg h)

theorem arok_swap (base n : ℕ) (ar : List ℕ) (h : ArOk base n ar) (i m : ℕ)
    (hi : i < n) (hm : m < n) :
    ArOk base n ((ar.set i (ar.getD m 0)).set m (ar.getD i 0)) := by
  obtain ⟨hlen, hent⟩ := h
  constructor
  · simp [hlen]
  · intro k hk
    by_cases hkm : k = m
    · subst hkm
      rw [getD_set_self _ _ _ k (by rw [List.length_set, hlen]; exact hk)]
      exact hent i hi
    · rw [getD_set_ne _ _ _ m k (fun hh => hkm hh.symm)]
      by_cases hki : k = i
      · subst hki
        rw [getD_set_self _ _ _ k (by rw [hlen]; exact hk)]
        exact hent m hm
      · rw [getD_set_ne _ _ _ i k (fun hh => hki hh.symm)]
        exact hent k hk

theorem foldl_write_frame (base : ℕ) (tgt : Store) :
    ∀ (l : List ℕ) (F : Store → ℕ → Store),
      (∀ st k, k ∈ l → (F st k).take base = st.take base) →
      ∀ st : Store, st.take base = tgt → (l.foldl F st).take base = tgt := by
  intro l
  induction l with
  | nil => intro F _ st h; simpa using h
  | cons a t ih =>
      intro F hF st h
      rw [List.foldl_cons]
      exact ih F (fun st0 k hk => hF st0 k (List.mem_cons_of_mem _ hk)) (F st a)
        ((hF st a (List.mem_cons_self a t)).trans h)

theorem elimNorm_frame (n base : ℕ) (tgt : Store) (i : ℕ) (hi : i < n)
    (ar2 : List ℕ) (st : Store) (har2 : ArOk base n ar2) (hst : st.take base = tgt) :
    ((List.range n).foldl (fun st0 k => if k = i then st0 else
        hWrite st0 (ar2.getD k 0) (elimRowHeap n ((hRead st0 (ar2.getD k 0)).getD i 0)
          (hRead st0 (ar2.getD i 0)) (hRead st0 (ar2.getD k 0))))
      (hWrite st (ar2.getD i 0) (normalizeRowHeap n ((hRead st (ar2.getD i 0)).getD i 0)
        (hRead st (ar2.getD i 0))))).take base = tgt := by
  refine foldl_write_frame base tgt (List.range n) _ ?_ _ ?_
  · intro st0 k hk
    by_cases hki : k = i
    · rw [if_pos hki]
    · rw [if_neg hki]
      exact take_set_of_le _ st0 (ar2.getD k 0) base (har2.2 k (List.mem_range.mp hk))
  · exact (take_set_of_le _ st (ar2.getD i 0) base (har2.2 i hi)).trans hst

theorem gjStepHeap_frame (n base : ℕ) (tgt : Store) (i : ℕ) (hi : i < n)
    (ar : List ℕ) (st : Store) (har : ArOk base n ar) (hst : st.take base = tgt) :
    ArOk base n (gjStepHeap n (ar, st) i).1 ∧
      (gjStepHeap n (ar, st) i).2.take base = tgt := by
  have hmax : pivotRowHeap st ar n i < n := pivotRowHeap_lt st ar n i hi
  have har2 : ArOk base n ((ar.set i (ar.getD (pivotRowHeap st ar n i) 0)).set
      (pivotRowHeap st ar n i) (ar.getD i 0)) := arok_swap base n ar har i _ hi hmax
  exact ⟨har2, elimNorm_frame n base tgt i hi _ st har2 hst⟩

theorem gaussFold_frame (n base : ℕ) (tgt : Store) :
    ∀ l : List ℕ, (∀ i ∈ l, i < n) →
      ∀ p : List ℕ × Store, ArOk base n p.1 → p.2.take base = tgt →
        ArOk base n (l.foldl (gjStepHeap n) p).1 ∧
          (l.foldl (gjStepHeap n) p).2.take base = tgt := by
  intro l
  induction l with
  | nil => intro _ p h1 h2; exact ⟨h1, h2⟩
  | cons i t ih =>
      intro hmem p h1 h2
      obtain ⟨ar, st0⟩ := p
      rw [List.foldl_cons]
      have hstep := gjStepHeap_frame n base tgt i (hmem i (List.mem_cons_self i t))
        ar st0 h1 h2
      exact ih (fun j hj => hmem j (List.mem_cons_of_mem _ hj))
        (gjStepHeap n (ar, st0) i) hstep.1 hstep.2

/-- C10: the heap-level `solveLinearSystem` performs all elimination on the
freshly allocated augmented rows (addresses `≥ st.length`) through a fresh
local reference array, so the entire pre-call heap — in particular every row
of `M` and the vector `b`, wherever they live — is unchanged after the call,
for every store, every list of row addresses and every `b` address. -/
theorem c10_solver_no_mutation (st : Store) (mrefs : List ℕ) (bref : ℕ) :
    ((solveLinearSystemHeap st mrefs bref).2).take st.length = st := by
  have harefs : ArOk st.length (hRead st bref).length
      ((List.range (hRead st bref).length).map (fun i => st.length + i)) := by
    constructor
    · simp
    · intro k hk
      rw [List.getD_eq_getElem _ _ (by simpa using hk), List.getElem_map,
        List.getElem_range]
      exact Nat.le_add_right _ _
  have hst1 : (st ++ (List.range (hRead st bref).length).map
      (fun i => hRead st (mrefs.getD i 0) ++ [(hRead st bref).getD i 0])).take
        st.length = st := List.take_left st _
  exact (gaussFold_frame (hRead st bref).length st.length st
    (List.range (hRead st bref).length) (fun i hi => List.mem_range.mp hi)
    ((List.range (hRead st bref).length).map (fun i => st.length + i),
      st ++ (List.range (hRead st bref).length).map
        (fun i => hRead st (mrefs.getD i 0) ++ [(hRead st bref).getD i 0]))
    harefs hst1).2

end MotionProfile
